import Mathlib

/-!
Car kinematics (car.js)

A shallow embedding of the class Car of car.js and of the frame loop that drives it.
Mutation of the receiver is explicit state passing: every method maps a Car to the Car after
the call.  Math.sin and Math.cos are library functions and are parameters sin and cos of the
definitions that call them.  The global canvas is a parameter as well.

The methods are given twice.

* In exact arithmetic, over an arbitrary linearly ordered field K: the rationals give an
  executable model, the reals with Real.sin and Real.cos the real-number semantics.  The
  properties proved on these definitions do not depend on rounding.
* With a rounding fl applied to the result of every arithmetic operation, as car.js computes
  in binary64.  With fl the identity these are the exact definitions again; with fl the
  function round64 (round to nearest, ties to even) they are the program as it runs, and the
  places where rounding decides a property are settled on them.
-/

namespace CarSim

/-- Key states, the object literal stored in this.controls. -/
structure Controls where
  up : Bool
  down : Bool
  left : Bool
  right : Bool
deriving DecidableEq, Repr

/-- Fields of a Car instance, in the order the constructor assigns them. -/
@[ext]
structure Car (K : Type) where
  x : K
  y : K
  width : K
  height : K
  color : String
  speed : K
  acceleration : K
  maxSpeed : K
  friction : K
  angle : K
  turnSpeed : K
  controls : Controls

/-- The two properties of the global canvas that the car reads. -/
structure Canvas (K : Type) where
  width : K
  height : K

variable {K : Type} [LinearOrderedField K]

/-- The constructor (car.js lines 12-25): speed 0, acceleration 1.0, maxSpeed 10,
friction 0.1, angle 0, turnSpeed 0.05, no key held. -/
def Car.constructor (x y width height : K) (color : String) : Car K :=
  { x := x
    y := y
    width := width
    height := height
    color := color
    speed := 0
    acceleration := 1
    maxSpeed := 10
    friction := 1 / 10
    angle := 0
    turnSpeed := 5 / 100
    controls := { up := false, down := false, left := false, right := false } }

/-- The private method move (car.js lines 35-61), statement by statement: turning, friction,
speed cap, then position integration with the updated angle and speed. -/
def Car.move (sin cos : K → K) (c : Car K) : Car K :=
  let c := if c.controls.left then { c with angle := c.angle - c.turnSpeed } else c
  let c := if c.controls.right then { c with angle := c.angle + c.turnSpeed } else c
  let c :=
    if c.speed > 0 then { c with speed := c.speed - c.friction }
    else if c.speed < 0 then { c with speed := c.speed + c.friction }
    else c
  let c :=
    if c.speed > c.maxSpeed then { c with speed := c.maxSpeed }
    else if c.speed < -c.maxSpeed then { c with speed := -c.maxSpeed }
    else c
  let c := { c with x := c.x + sin c.angle * c.speed }
  { c with y := c.y - cos c.angle * c.speed }

/-- The private method checkBorders (car.js lines 64-70): four independent tests in
sequence, each reading the position left by the previous one. -/
def Car.checkBorders (canvas : Canvas K) (c : Car K) : Car K :=
  let c := if c.x < 0 then { c with x := 0 } else c
  let c := if c.x + c.width > canvas.width then { c with x := canvas.width - c.width } else c
  let c := if c.y < 0 then { c with y := 0 } else c
  if c.y + c.height > canvas.height then { c with y := canvas.height - c.height } else c

/-- The method update (car.js lines 28-32), the per-frame advance: move, then checkBorders.
The closing call of draw only reads the car and issues canvas calls, so it leaves the
state as it is. -/
def Car.update (sin cos : K → K) (canvas : Canvas K) (c : Car K) : Car K :=
  Car.checkBorders canvas (Car.move sin cos c)

/-- The method accelerate (car.js lines 83-85). -/
def Car.accelerate (c : Car K) : Car K :=
  { c with speed := c.speed + c.acceleration }

/-- The method brake (car.js lines 88-90). -/
def Car.brake (c : Car K) : Car K :=
  { c with speed := c.speed - c.acceleration }

/-- The method setControl (car.js lines 93-110): a switch on the key identifier with
no default case. -/
def Car.setControl (key : String) (isPressed : Bool) (c : Car K) : Car K :=
  if key = "ArrowUp" then
    let c := { c with controls := { c.controls with up := isPressed } }
    if isPressed then Car.accelerate c else c
  else if key = "ArrowDown" then
    let c := { c with controls := { c.controls with down := isPressed } }
    if isPressed then Car.brake c else c
  else if key = "ArrowLeft" then
    { c with controls := { c.controls with left := isPressed } }
  else if key = "ArrowRight" then
    { c with controls := { c.controls with right := isPressed } }
  else c

/-- The car after n frames of the animation loop (car.js lines 140-145) with no key event
in between: each frame calls update once. -/
def animate (sin cos : K → K) (canvas : Canvas K) : Nat → Car K → Car K
  | 0, c => c
  | n + 1, c => animate sin cos canvas n (Car.update sin cos canvas c)

/-- The states the program can be in: the state the constructor returns, for any arguments,
and every state a method call makes of such a state. -/
inductive Reachable (sin cos : K → K) (canvas : Canvas K) : Car K → Prop
  | start (x y width height : K) (color : String) :
      Reachable sin cos canvas (Car.constructor x y width height color)
  | update (c : Car K) :
      Reachable sin cos canvas c → Reachable sin cos canvas (Car.update sin cos canvas c)
  | accelerate (c : Car K) :
      Reachable sin cos canvas c → Reachable sin cos canvas (Car.accelerate c)
  | brake (c : Car K) :
      Reachable sin cos canvas c → Reachable sin cos canvas (Car.brake c)
  | setControl (key : String) (isPressed : Bool) (c : Car K) :
      Reachable sin cos canvas c → Reachable sin cos canvas (Car.setControl key isPressed c)

/-- The instance created at car.js line 114. -/
def car : Car K := Car.constructor 350 500 30 50 "blue"

/-- An assignment to the public field speed from outside the class. -/
def withSpeed (s : K) (c : Car K) : Car K :=
  { c with speed := s }

/-- An assignment to the public field controls from outside the class. -/
def withControls (k : Controls) (c : Car K) : Car K :=
  { c with controls := k }

/-- A finite sequence of setControl calls, first call first: each entry is the key
identifier and the pressed value that keyDownHandler (true) or keyUpHandler (false) passes
on (car.js lines 148-155). -/
def setControls : List (String × Bool) → Car K → Car K
  | [], c => c
  | (key, isPressed) :: rest, c => setControls rest (Car.setControl key isPressed c)

/-- Two states agree on everything except the up and down key flags. -/
def agreeExceptUpDown (c₁ c₂ : Car K) : Prop :=
  c₁.x = c₂.x ∧ c₁.y = c₂.y ∧ c₁.width = c₂.width ∧ c₁.height = c₂.height ∧
  c₁.color = c₂.color ∧ c₁.speed = c₂.speed ∧ c₁.acceleration = c₂.acceleration ∧
  c₁.maxSpeed = c₂.maxSpeed ∧ c₁.friction = c₂.friction ∧ c₁.angle = c₂.angle ∧
  c₁.turnSpeed = c₂.turnSpeed ∧ c₁.controls.left = c₂.controls.left ∧
  c₁.controls.right = c₂.controls.right

/-- Two states have the same extent, color and constants. -/
def sameConstants (c₁ c₂ : Car K) : Prop :=
  c₁.width = c₂.width ∧ c₁.height = c₂.height ∧ c₁.color = c₂.color ∧
  c₁.acceleration = c₂.acceleration ∧ c₁.maxSpeed = c₂.maxSpeed ∧
  c₁.friction = c₂.friction ∧ c₁.turnSpeed = c₂.turnSpeed

/-! ## Binary64 arithmetic

car.js computes with IEEE 754 binary64 numbers: each +, - and * returns the exact result
rounded to the nearest binary64 number, ties to even, and a decimal literal such as 0.1 is the
binary64 number nearest to it.  Binary64 numbers are rationals, so the rounding is a function
on the rationals.  Overflow to Infinity is left out: the function is the IEEE one for values
below 2^1024 in magnitude. -/

/-- The rational 2^e. -/
def pow2 (e : ℤ) : ℚ :=
  if 0 ≤ e then ((2 ^ e.toNat : ℕ) : ℚ) else 1 / ((2 ^ (-e).toNat : ℕ) : ℚ)

/-- Binary logarithm by repeated halving, with the number of halvings bounded by fuel. -/
def log2Fuel : ℕ → ℕ → ℕ
  | 0, _ => 0
  | fuel + 1, n => if n < 2 then 0 else log2Fuel fuel (n / 2) + 1

/-- The position of the leading bit of n: floor(log2 n) for n at least 1. -/
def natLog2 (n : ℕ) : ℕ := log2Fuel n n

/-- The binary exponent floor(log2 r) of a positive rational r. -/
def ilog2 (r : ℚ) : ℤ :=
  let l : ℤ := (natLog2 r.num.natAbs : ℤ) - (natLog2 r.den : ℤ)
  if pow2 l ≤ r then l else l - 1

/-- Rounding to the nearest integer, ties to the even one. -/
def rne (x : ℚ) : ℤ :=
  let f := ⌊x⌋
  if x - f < 1 / 2 then f
  else if 1 / 2 < x - f then f + 1
  else if f % 2 = 0 then f else f + 1

/-- Rounding to binary64, nearest with ties to even: q is rounded to a multiple of 2^e,
where e puts the leading bit of q at position 52 (a 53-bit significand) and is at least
-1074 (the subnormal range). -/
def round64 (q : ℚ) : ℚ :=
  if q = 0 then 0
  else
    let e := max (ilog2 |q| - 52) (-1074)
    (rne (q / pow2 e) : ℚ) * pow2 e

/-! ## The class with rounded arithmetic

The methods of car.js once more, with the rounding fl applied to the result of every
arithmetic operation.  With fl the identity these are the definitions above; with fl the
function round64 they are the program as it runs.  Comparisons and the negation -maxSpeed are
exact in binary64, and sin and cos stand for Math.sin and Math.cos, whose results are
binary64 numbers already. -/

/-- The constructor (car.js lines 12-25) with the literals 0.1 and 0.05 rounded. -/
def Car.constructorR (fl : K → K) (x y width height : K) (color : String) : Car K :=
  { x := x
    y := y
    width := width
    height := height
    color := color
    speed := 0
    acceleration := 1
    maxSpeed := 10
    friction := fl (1 / 10)
    angle := 0
    turnSpeed := fl (5 / 100)
    controls := { up := false, down := false, left := false, right := false } }

/-- The private method move (car.js lines 35-61) with rounded arithmetic. -/
def Car.moveR (fl : K → K) (sin cos : K → K) (c : Car K) : Car K :=
  let c := if c.controls.left then { c with angle := fl (c.angle - c.turnSpeed) } else c
  let c := if c.controls.right then { c with angle := fl (c.angle + c.turnSpeed) } else c
  let c :=
    if c.speed > 0 then { c with speed := fl (c.speed - c.friction) }
    else if c.speed < 0 then { c with speed := fl (c.speed + c.friction) }
    else c
  let c :=
    if c.speed > c.maxSpeed then { c with speed := c.maxSpeed }
    else if c.speed < -c.maxSpeed then { c with speed := -c.maxSpeed }
    else c
  let c := { c with x := fl (c.x + fl (sin c.angle * c.speed)) }
  { c with y := fl (c.y - fl (cos c.angle * c.speed)) }

/-- The private method checkBorders (car.js lines 64-70) with rounded arithmetic: the
far-edge tests compare the rounded sums. -/
def Car.checkBordersR (fl : K → K) (canvas : Canvas K) (c : Car K) : Car K :=
  let c := if c.x < 0 then { c with x := 0 } else c
  let c :=
    if fl (c.x + c.width) > canvas.width then { c with x := fl (canvas.width - c.width) }
    else c
  let c := if c.y < 0 then { c with y := 0 } else c
  if fl (c.y + c.height) > canvas.height then { c with y := fl (canvas.height - c.height) }
  else c

/-- The method update (car.js lines 28-32) with rounded arithmetic. -/
def Car.updateR (fl : K → K) (sin cos : K → K) (canvas : Canvas K) (c : Car K) : Car K :=
  Car.checkBordersR fl canvas (Car.moveR fl sin cos c)

/-- The method accelerate (car.js lines 83-85) with rounded arithmetic. -/
def Car.accelerateR (fl : K → K) (c : Car K) : Car K :=
  { c with speed := fl (c.speed + c.acceleration) }

/-- The method brake (car.js lines 88-90) with rounded arithmetic. -/
def Car.brakeR (fl : K → K) (c : Car K) : Car K :=
  { c with speed := fl (c.speed - c.acceleration) }

/-- The method setControl (car.js lines 93-110) with rounded arithmetic. -/
def Car.setControlR (fl : K → K) (key : String) (isPressed : Bool) (c : Car K) : Car K :=
  if key = "ArrowUp" then
    let c := { c with controls := { c.controls with up := isPressed } }
    if isPressed then Car.accelerateR fl c else c
  else if key = "ArrowDown" then
    let c := { c with controls := { c.controls with down := isPressed } }
    if isPressed then Car.brakeR fl c else c
  else if key = "ArrowLeft" then
    { c with controls := { c.controls with left := isPressed } }
  else if key = "ArrowRight" then
    { c with controls := { c.controls with right := isPressed } }
  else c

/-- The car after n frames of the animation loop (car.js lines 140-145), rounded
arithmetic, no key event in between. -/
def animateR (fl : K → K) (sin cos : K → K) (canvas : Canvas K) : ℕ → Car K → Car K
  | 0, c => c
  | n + 1, c => animateR fl sin cos canvas n (Car.updateR fl sin cos canvas c)

/-- The instance created at car.js line 114 as the program stores it: friction and
turnSpeed are the binary64 numbers nearest to 0.1 and 0.05. -/
def carR : Car ℚ := Car.constructorR round64 350 500 30 50 "blue"

/-- The car of car.js line 114 after five ArrowUp key-downs: speed 5. -/
def carR5 : Car ℚ := (Car.setControlR round64 "ArrowUp" true)^[5] carR

/-- The angle after the two turning statements of move, rounded arithmetic. -/
def turnR (fl : K → K) (left right : Bool) (turnSpeed angle : K) : K :=
  let a := if left then fl (angle - turnSpeed) else angle
  if right then fl (a + turnSpeed) else a

/-- The speed after the friction statement of move, rounded arithmetic. -/
def decayR (fl : K → K) (friction speed : K) : K :=
  if speed > 0 then fl (speed - friction)
  else if speed < 0 then fl (speed + friction)
  else speed

/-- One axis of checkBorders, rounded arithmetic. -/
def borderR (fl : K → K) (limit extent p : K) : K :=
  let p := if p < 0 then 0 else p
  if fl (p + extent) > limit then fl (limit - extent) else p

/-! ## Field-wise description of the methods -/

/-- The angle after the two turning statements of move. -/
def turned (c : Car K) : K :=
  let a := if c.controls.left then c.angle - c.turnSpeed else c.angle
  if c.controls.right then a + c.turnSpeed else a

/-- The speed after the friction statement of move. -/
def decayed (c : Car K) : K :=
  if c.speed > 0 then c.speed - c.friction
  else if c.speed < 0 then c.speed + c.friction
  else c.speed

/-- The speed cap of move applied to a speed s. -/
def capped (maxSpeed s : K) : K :=
  if s > maxSpeed then maxSpeed
  else if s < -maxSpeed then -maxSpeed
  else s

/-- One axis of checkBorders: the test against 0, then the test against the far edge
(limit is the canvas size and extent the car size along that axis). -/
def bordered (limit extent p : K) : K :=
  let p := if p < 0 then 0 else p
  if p + extent > limit then limit - extent else p

/-- One frame of a car at a fixed heading with cosine c₀, as it acts on the pair
(speed, y): the friction and cap statements of move, the y integration, and the two y tests
of checkBorders, rounded arithmetic. -/
def frameSpeedY (fl : K → K) (c₀ friction maxSpeed height canvasHeight : K) (p : K × K) :
    K × K :=
  let s := capped maxSpeed (decayR fl friction p.1)
  (s, borderR fl canvasHeight height (fl (p.2 - fl (c₀ * s))))

/-! ## What move, checkBorders and update do to each field -/

theorem move_angle (sin cos : K → K) (c : Car K) :
    (Car.move sin cos c).angle = turned c := by
  simp only [Car.move, turned, apply_ite Car.angle, apply_ite Car.turnSpeed,
    apply_ite Car.controls, ite_self]

theorem move_speed (sin cos : K → K) (c : Car K) :
    (Car.move sin cos c).speed = capped c.maxSpeed (decayed c) := by
  simp only [Car.move, capped, decayed, apply_ite Car.speed, apply_ite Car.maxSpeed,
    apply_ite Car.friction, ite_self]

theorem move_x (sin cos : K → K) (c : Car K) :
    (Car.move sin cos c).x = c.x + sin (turned c) * capped c.maxSpeed (decayed c) := by
  rw [← move_angle sin cos c, ← move_speed sin cos c]
  simp only [Car.move, apply_ite Car.x, ite_self]

theorem move_y (sin cos : K → K) (c : Car K) :
    (Car.move sin cos c).y = c.y - cos (turned c) * capped c.maxSpeed (decayed c) := by
  rw [← move_angle sin cos c, ← move_speed sin cos c]
  simp only [Car.move, apply_ite Car.y, ite_self]

theorem move_frame (sin cos : K → K) (c : Car K) :
    (Car.move sin cos c).width = c.width ∧ (Car.move sin cos c).height = c.height ∧
    (Car.move sin cos c).color = c.color ∧
    (Car.move sin cos c).acceleration = c.acceleration ∧
    (Car.move sin cos c).maxSpeed = c.maxSpeed ∧
    (Car.move sin cos c).friction = c.friction ∧
    (Car.move sin cos c).turnSpeed = c.turnSpeed ∧
    (Car.move sin cos c).controls = c.controls := by
  simp only [Car.move, apply_ite Car.width, apply_ite Car.height, apply_ite Car.color,
    apply_ite Car.acceleration, apply_ite Car.maxSpeed, apply_ite Car.friction,
    apply_ite Car.turnSpeed, apply_ite Car.controls, ite_self, and_self]

theorem checkBorders_x (canvas : Canvas K) (c : Car K) :
    (Car.checkBorders canvas c).x = bordered canvas.width c.width c.x := by
  simp only [Car.checkBorders, bordered, apply_ite Car.x, apply_ite Car.width, ite_self]

theorem checkBorders_y (canvas : Canvas K) (c : Car K) :
    (Car.checkBorders canvas c).y = bordered canvas.height c.height c.y := by
  simp only [Car.checkBorders, bordered, apply_ite Car.y, apply_ite Car.height, ite_self]

theorem checkBorders_frame (canvas : Canvas K) (c : Car K) :
    (Car.checkBorders canvas c).width = c.width ∧
    (Car.checkBorders canvas c).height = c.height ∧
    (Car.checkBorders canvas c).color = c.color ∧
    (Car.checkBorders canvas c).speed = c.speed ∧
    (Car.checkBorders canvas c).acceleration = c.acceleration ∧
    (Car.checkBorders canvas c).maxSpeed = c.maxSpeed ∧
    (Car.checkBorders canvas c).friction = c.friction ∧
    (Car.checkBorders canvas c).angle = c.angle ∧
    (Car.checkBorders canvas c).turnSpeed = c.turnSpeed ∧
    (Car.checkBorders canvas c).controls = c.controls := by
  simp only [Car.checkBorders, apply_ite Car.width, apply_ite Car.height, apply_ite Car.color,
    apply_ite Car.speed, apply_ite Car.acceleration, apply_ite Car.maxSpeed,
    apply_ite Car.friction, apply_ite Car.angle, apply_ite Car.turnSpeed,
    apply_ite Car.controls, ite_self, and_self]

theorem update_speed (sin cos : K → K) (canvas : Canvas K) (c : Car K) :
    (Car.update sin cos canvas c).speed = capped c.maxSpeed (decayed c) := by
  unfold Car.update
  rw [(checkBorders_frame canvas _).2.2.2.1, move_speed]

theorem update_angle (sin cos : K → K) (canvas : Canvas K) (c : Car K) :
    (Car.update sin cos canvas c).angle = turned c := by
  unfold Car.update
  rw [(checkBorders_frame canvas _).2.2.2.2.2.2.2.1, move_angle]

theorem update_x (sin cos : K → K) (canvas : Canvas K) (c : Car K) :
    (Car.update sin cos canvas c).x =
      bordered canvas.width c.width (c.x + sin (turned c) * capped c.maxSpeed (decayed c)) := by
  unfold Car.update
  rw [checkBorders_x, (move_frame sin cos c).1, move_x]

theorem update_y (sin cos : K → K) (canvas : Canvas K) (c : Car K) :
    (Car.update sin cos canvas c).y =
      bordered canvas.height c.height
        (c.y - cos (turned c) * capped c.maxSpeed (decayed c)) := by
  unfold Car.update
  rw [checkBorders_y, (move_frame sin cos c).2.1, move_y]

theorem update_frame (sin cos : K → K) (canvas : Canvas K) (c : Car K) :
    (Car.update sin cos canvas c).width = c.width ∧
    (Car.update sin cos canvas c).height = c.height ∧
    (Car.update sin cos canvas c).color = c.color ∧
    (Car.update sin cos canvas c).acceleration = c.acceleration ∧
    (Car.update sin cos canvas c).maxSpeed = c.maxSpeed ∧
    (Car.update sin cos canvas c).friction = c.friction ∧
    (Car.update sin cos canvas c).turnSpeed = c.turnSpeed ∧
    (Car.update sin cos canvas c).controls = c.controls := by
  have hb := checkBorders_frame canvas (Car.move sin cos c)
  have hm := move_frame sin cos c
  unfold Car.update
  refine ⟨hb.1.trans hm.1, hb.2.1.trans hm.2.1, hb.2.2.1.trans hm.2.2.1,
    hb.2.2.2.2.1.trans hm.2.2.2.1, hb.2.2.2.2.2.1.trans hm.2.2.2.2.1,
    hb.2.2.2.2.2.2.1.trans hm.2.2.2.2.2.1, hb.2.2.2.2.2.2.2.2.1.trans hm.2.2.2.2.2.2.1,
    hb.2.2.2.2.2.2.2.2.2.trans hm.2.2.2.2.2.2.2⟩

theorem capped_bounds (m s : K) (hm : 0 ≤ m) : -m ≤ capped m s ∧ capped m s ≤ m := by
  unfold capped
  split_ifs with h1 h2
  · exact ⟨by linarith, le_refl m⟩
  · exact ⟨le_refl _, by linarith⟩
  · exact ⟨not_lt.mp h2, not_lt.mp h1⟩

theorem animate_succ (sin cos : K → K) (canvas : Canvas K) (n : Nat) (c : Car K) :
    animate sin cos canvas (n + 1) c =
      Car.update sin cos canvas (animate sin cos canvas n c) := by
  induction n generalizing c with
  | zero => rfl
  | succ k ih =>
    show animate sin cos canvas (k + 1) (Car.update sin cos canvas c) = _
    rw [ih]
    rfl

theorem animate_maxSpeed (sin cos : K → K) (canvas : Canvas K) (n : Nat) (c : Car K) :
    (animate sin cos canvas n c).maxSpeed = c.maxSpeed := by
  induction n with
  | zero => rfl
  | succ k ih => rw [animate_succ, (update_frame sin cos canvas _).2.2.2.2.1, ih]

theorem animate_width (sin cos : K → K) (canvas : Canvas K) (n : Nat) (c : Car K) :
    (animate sin cos canvas n c).width = c.width := by
  induction n with
  | zero => rfl
  | succ k ih => rw [animate_succ, (update_frame sin cos canvas _).1, ih]

theorem animate_height (sin cos : K → K) (canvas : Canvas K) (n : Nat) (c : Car K) :
    (animate sin cos canvas n c).height = c.height := by
  induction n with
  | zero => rfl
  | succ k ih => rw [animate_succ, (update_frame sin cos canvas _).2.1, ih]

theorem bordered_le (limit extent p : K) : bordered limit extent p ≤ limit - extent := by
  simp only [bordered]
  split_ifs with h1 h2 h3
  · exact le_refl _
  · linarith
  · exact le_refl _
  · linarith

theorem bordered_inside (limit extent p : K) (h0 : 0 ≤ p) (h1 : p + extent ≤ limit) :
    bordered limit extent p = p := by
  simp only [bordered]
  rw [if_neg (not_lt.mpr h0), if_neg (not_lt.mpr h1)]

theorem capped_inside (m s : K) (h0 : -m ≤ s) (h1 : s ≤ m) : capped m s = s := by
  simp only [capped]
  rw [if_neg (not_lt.mpr h1), if_neg (not_lt.mpr h0)]

theorem bordered_narrow (limit extent p : K) (h : limit < extent) :
    bordered limit extent p = limit - extent := by
  simp only [bordered]
  split_ifs with h1 h2 h3
  · rfl
  · exact absurd (by linarith : (0 : K) + extent > limit) h2
  · rfl
  · exact absurd (by linarith : p + extent > limit) h3

/-- The four calls that set the flags to a given combination, whatever they were. -/
theorem setControls_four (target : Controls) (c : Car K) :
    (setControls [("ArrowUp", target.up), ("ArrowDown", target.down),
      ("ArrowLeft", target.left), ("ArrowRight", target.right)] c).controls = target := by
  obtain ⟨u, d, l, r⟩ := target
  cases u <;> cases d <;> simp [setControls, Car.setControl, Car.accelerate, Car.brake]

/-- A forward speed below the friction loses the whole friction in one frame. -/
theorem update_speed_sub (sin cos : K → K) (canvas : Canvas K) (c : Car K)
    (hf : c.friction ≤ c.maxSpeed) (h0 : 0 < c.speed) (h1 : c.speed < c.friction) :
    (Car.update sin cos canvas c).speed = c.speed - c.friction := by
  rw [update_speed]
  simp only [decayed]
  rw [if_pos h0, capped_inside _ _ (by linarith) (by linarith)]

/-- A backward speed above minus the friction gains the whole friction in one frame. -/
theorem update_speed_add (sin cos : K → K) (canvas : Canvas K) (c : Car K)
    (hf : c.friction ≤ c.maxSpeed) (h0 : c.speed < 0) (h1 : -c.friction < c.speed) :
    (Car.update sin cos canvas c).speed = c.speed + c.friction := by
  rw [update_speed]
  simp only [decayed]
  rw [if_neg (not_lt.mpr (le_of_lt h0)), if_pos h0,
    capped_inside _ _ (by linarith) (by linarith)]

/-- If one frame takes speed a to b and speed b to a (at friction f and maxSpeed m), then
the speed is a after every even number of frames and b after every odd number. -/
theorem animate_alternates (sin cos : K → K) (canvas : Canvas K) (f m a b : K)
    (hab : ∀ d : Car K, d.friction = f → d.maxSpeed = m → d.speed = a →
      (Car.update sin cos canvas d).speed = b)
    (hba : ∀ d : Car K, d.friction = f → d.maxSpeed = m → d.speed = b →
      (Car.update sin cos canvas d).speed = a)
    (n : Nat) (d : Car K) (hf : d.friction = f) (hm : d.maxSpeed = m) (hs : d.speed = a) :
    (animate sin cos canvas (2 * n) d).speed = a ∧
    (animate sin cos canvas (2 * n + 1) d).speed = b := by
  induction n generalizing d with
  | zero => exact ⟨hs, hab d hf hm hs⟩
  | succ k ih =>
    have f₁ := update_frame sin cos canvas d
    have f₂ := update_frame sin cos canvas (Car.update sin cos canvas d)
    have hf₁ : (Car.update sin cos canvas d).friction = f := f₁.2.2.2.2.2.1.trans hf
    have hm₁ : (Car.update sin cos canvas d).maxSpeed = m := f₁.2.2.2.2.1.trans hm
    have hs₁ := hab d hf hm hs
    exact ih (Car.update sin cos canvas (Car.update sin cos canvas d))
      (f₂.2.2.2.2.2.1.trans hf₁) (f₂.2.2.2.2.1.trans hm₁)
      (hba _ hf₁ hm₁ hs₁)

/-- Every state of the program has the maxSpeed the constructor set, 10. -/
theorem reachable_maxSpeed (sin cos : K → K) (canvas : Canvas K) (c : Car K)
    (h : Reachable sin cos canvas c) : c.maxSpeed = 10 := by
  induction h with
  | start x y width height color => rfl
  | update c _ ih => rw [(update_frame sin cos canvas c).2.2.2.2.1, ih]
  | accelerate c _ ih => exact ih
  | brake c _ ih => exact ih
  | setControl key isPressed c _ ih =>
    have : (Car.setControl key isPressed c).maxSpeed = c.maxSpeed := by
      simp only [Car.setControl]
      split_ifs <;> rfl
    rw [this, ih]

/-! ## The rounded methods, field by field -/

theorem moveR_id (sin cos : K → K) (c : Car K) : Car.moveR id sin cos c = Car.move sin cos c :=
  rfl

theorem checkBordersR_id (canvas : Canvas K) (c : Car K) :
    Car.checkBordersR id canvas c = Car.checkBorders canvas c :=
  rfl

theorem updateR_id (sin cos : K → K) (canvas : Canvas K) (c : Car K) :
    Car.updateR id sin cos canvas c = Car.update sin cos canvas c :=
  rfl

theorem animateR_id (sin cos : K → K) (canvas : Canvas K) (n : ℕ) (c : Car K) :
    animateR id sin cos canvas n c = animate sin cos canvas n c := by
  induction n generalizing c with
  | zero => rfl
  | succ k ih => exact ih _

theorem moveR_angle (fl sin cos : K → K) (c : Car K) :
    (Car.moveR fl sin cos c).angle =
      turnR fl c.controls.left c.controls.right c.turnSpeed c.angle := by
  simp only [Car.moveR, turnR, apply_ite Car.angle, apply_ite Car.turnSpeed,
    apply_ite Car.controls, ite_self]

theorem moveR_speed (fl sin cos : K → K) (c : Car K) :
    (Car.moveR fl sin cos c).speed = capped c.maxSpeed (decayR fl c.friction c.speed) := by
  simp only [Car.moveR, capped, decayR, apply_ite Car.speed, apply_ite Car.maxSpeed,
    apply_ite Car.friction, ite_self]

theorem moveR_x (fl sin cos : K → K) (c : Car K) :
    (Car.moveR fl sin cos c).x =
      fl (c.x + fl (sin (turnR fl c.controls.left c.controls.right c.turnSpeed c.angle) *
        capped c.maxSpeed (decayR fl c.friction c.speed))) := by
  rw [← moveR_angle fl sin cos c, ← moveR_speed fl sin cos c]
  simp only [Car.moveR, apply_ite Car.x, ite_self]

theorem moveR_y (fl sin cos : K → K) (c : Car K) :
    (Car.moveR fl sin cos c).y =
      fl (c.y - fl (cos (turnR fl c.controls.left c.controls.right c.turnSpeed c.angle) *
        capped c.maxSpeed (decayR fl c.friction c.speed))) := by
  rw [← moveR_angle fl sin cos c, ← moveR_speed fl sin cos c]
  simp only [Car.moveR, apply_ite Car.y, ite_self]

theorem moveR_frame (fl sin cos : K → K) (c : Car K) :
    (Car.moveR fl sin cos c).width = c.width ∧ (Car.moveR fl sin cos c).height = c.height ∧
    (Car.moveR fl sin cos c).color = c.color ∧
    (Car.moveR fl sin cos c).acceleration = c.acceleration ∧
    (Car.moveR fl sin cos c).maxSpeed = c.maxSpeed ∧
    (Car.moveR fl sin cos c).friction = c.friction ∧
    (Car.moveR fl sin cos c).turnSpeed = c.turnSpeed ∧
    (Car.moveR fl sin cos c).controls = c.controls := by
  simp only [Car.moveR, apply_ite Car.width, apply_ite Car.height, apply_ite Car.color,
    apply_ite Car.acceleration, apply_ite Car.maxSpeed, apply_ite Car.friction,
    apply_ite Car.turnSpeed, apply_ite Car.controls, ite_self, and_self]

theorem checkBordersR_x (fl : K → K) (canvas : Canvas K) (c : Car K) :
    (Car.checkBordersR fl canvas c).x = borderR fl canvas.width c.width c.x := by
  simp only [Car.checkBordersR, borderR, apply_ite Car.x, apply_ite Car.width, ite_self]

theorem checkBordersR_y (fl : K → K) (canvas : Canvas K) (c : Car K) :
    (Car.checkBordersR fl canvas c).y = borderR fl canvas.height c.height c.y := by
  simp only [Car.checkBordersR, borderR, apply_ite Car.y, apply_ite Car.height, ite_self]

theorem checkBordersR_frame (fl : K → K) (canvas : Canvas K) (c : Car K) :
    (Car.checkBordersR fl canvas c).width = c.width ∧
    (Car.checkBordersR fl canvas c).height = c.height ∧
    (Car.checkBordersR fl canvas c).color = c.color ∧
    (Car.checkBordersR fl canvas c).speed = c.speed ∧
    (Car.checkBordersR fl canvas c).acceleration = c.acceleration ∧
    (Car.checkBordersR fl canvas c).maxSpeed = c.maxSpeed ∧
    (Car.checkBordersR fl canvas c).friction = c.friction ∧
    (Car.checkBordersR fl canvas c).angle = c.angle ∧
    (Car.checkBordersR fl canvas c).turnSpeed = c.turnSpeed ∧
    (Car.checkBordersR fl canvas c).controls = c.controls := by
  simp only [Car.checkBordersR, apply_ite Car.width, apply_ite Car.height, apply_ite Car.color,
    apply_ite Car.speed, apply_ite Car.acceleration, apply_ite Car.maxSpeed,
    apply_ite Car.friction, apply_ite Car.angle, apply_ite Car.turnSpeed,
    apply_ite Car.controls, ite_self, and_self]

theorem updateR_speed (fl sin cos : K → K) (canvas : Canvas K) (c : Car K) :
    (Car.updateR fl sin cos canvas c).speed =
      capped c.maxSpeed (decayR fl c.friction c.speed) := by
  unfold Car.updateR
  rw [(checkBordersR_frame fl canvas _).2.2.2.1, moveR_speed]

theorem updateR_angle (fl sin cos : K → K) (canvas : Canvas K) (c : Car K) :
    (Car.updateR fl sin cos canvas c).angle =
      turnR fl c.controls.left c.controls.right c.turnSpeed c.angle := by
  unfold Car.updateR
  rw [(checkBordersR_frame fl canvas _).2.2.2.2.2.2.2.1, moveR_angle]

theorem updateR_x (fl sin cos : K → K) (canvas : Canvas K) (c : Car K) :
    (Car.updateR fl sin cos canvas c).x =
      borderR fl canvas.width c.width (Car.moveR fl sin cos c).x := by
  unfold Car.updateR
  rw [checkBordersR_x, (moveR_frame fl sin cos c).1]

theorem updateR_y (fl sin cos : K → K) (canvas : Canvas K) (c : Car K) :
    (Car.updateR fl sin cos canvas c).y =
      borderR fl canvas.height c.height (Car.moveR fl sin cos c).y := by
  unfold Car.updateR
  rw [checkBordersR_y, (moveR_frame fl sin cos c).2.1]

theorem updateR_frame (fl sin cos : K → K) (canvas : Canvas K) (c : Car K) :
    (Car.updateR fl sin cos canvas c).width = c.width ∧
    (Car.updateR fl sin cos canvas c).height = c.height ∧
    (Car.updateR fl sin cos canvas c).color = c.color ∧
    (Car.updateR fl sin cos canvas c).acceleration = c.acceleration ∧
    (Car.updateR fl sin cos canvas c).maxSpeed = c.maxSpeed ∧
    (Car.updateR fl sin cos canvas c).friction = c.friction ∧
    (Car.updateR fl sin cos canvas c).turnSpeed = c.turnSpeed ∧
    (Car.updateR fl sin cos canvas c).controls = c.controls := by
  have hb := checkBordersR_frame fl canvas (Car.moveR fl sin cos c)
  have hm := moveR_frame fl sin cos c
  unfold Car.updateR
  refine ⟨hb.1.trans hm.1, hb.2.1.trans hm.2.1, hb.2.2.1.trans hm.2.2.1,
    hb.2.2.2.2.1.trans hm.2.2.2.1, hb.2.2.2.2.2.1.trans hm.2.2.2.2.1,
    hb.2.2.2.2.2.2.1.trans hm.2.2.2.2.2.1, hb.2.2.2.2.2.2.2.2.1.trans hm.2.2.2.2.2.2.1,
    hb.2.2.2.2.2.2.2.2.2.trans hm.2.2.2.2.2.2.2⟩

theorem animateR_succ (fl sin cos : K → K) (canvas : Canvas K) (n : ℕ) (c : Car K) :
    animateR fl sin cos canvas (n + 1) c =
      Car.updateR fl sin cos canvas (animateR fl sin cos canvas n c) := by
  induction n generalizing c with
  | zero => rfl
  | succ k ih =>
    show animateR fl sin cos canvas (k + 1) (Car.updateR fl sin cos canvas c) = _
    rw [ih]
    rfl

theorem animateR_frame (fl sin cos : K → K) (canvas : Canvas K) (n : ℕ) (c : Car K) :
    (animateR fl sin cos canvas n c).width = c.width ∧
    (animateR fl sin cos canvas n c).height = c.height ∧
    (animateR fl sin cos canvas n c).maxSpeed = c.maxSpeed ∧
    (animateR fl sin cos canvas n c).friction = c.friction := by
  induction n with
  | zero => exact ⟨rfl, rfl, rfl, rfl⟩
  | succ k ih =>
    have f := updateR_frame fl sin cos canvas (animateR fl sin cos canvas k c)
    rw [animateR_succ]
    exact ⟨f.1.trans ih.1, f.2.1.trans ih.2.1, f.2.2.2.2.1.trans ih.2.2.1,
      f.2.2.2.2.2.1.trans ih.2.2.2⟩

/-- The speed after n frames depends on friction, maxSpeed and the starting speed only. -/
theorem animateR_speed (fl sin cos : K → K) (canvas : Canvas K) (n : ℕ) (c : Car K) :
    (animateR fl sin cos canvas n c).speed =
      (fun s => capped c.maxSpeed (decayR fl c.friction s))^[n] c.speed := by
  induction n with
  | zero => rfl
  | succ k ih =>
    have f := animateR_frame fl sin cos canvas k c
    rw [animateR_succ, updateR_speed, f.2.2.1, f.2.2.2, ih, Function.iterate_succ_apply']

theorem borderR_id (limit extent p : K) : borderR id limit extent p = bordered limit extent p :=
  rfl

theorem borderR_nonneg (fl : K → K) (hfl : ∀ a : K, 0 ≤ a → 0 ≤ fl a) (limit extent p : K)
    (h : extent ≤ limit) : 0 ≤ borderR fl limit extent p := by
  simp only [borderR]
  split_ifs with h1 h2 h3
  · exact hfl _ (by linarith)
  · exact le_refl 0
  · exact hfl _ (by linarith)
  · exact not_lt.mp h1

/-- What the far-edge test of one axis leaves: the rounded limit - extent, or a position
whose rounded sum with the extent does not exceed the limit. -/
theorem borderR_far (fl : K → K) (limit extent p : K) :
    borderR fl limit extent p = fl (limit - extent) ∨
      fl (borderR fl limit extent p + extent) ≤ limit := by
  simp only [borderR]
  split_ifs with h1 h2 h3
  · exact Or.inl rfl
  · exact Or.inr (not_lt.mp h2)
  · exact Or.inl rfl
  · exact Or.inr (not_lt.mp h3)

/-- An update reads sin and cos at the turned heading only. -/
theorem updateR_trig (fl sin cos sin₂ cos₂ : K → K) (canvas : Canvas K) (c : Car K)
    (hs : sin (turnR fl c.controls.left c.controls.right c.turnSpeed c.angle) =
      sin₂ (turnR fl c.controls.left c.controls.right c.turnSpeed c.angle))
    (hc : cos (turnR fl c.controls.left c.controls.right c.turnSpeed c.angle) =
      cos₂ (turnR fl c.controls.left c.controls.right c.turnSpeed c.angle)) :
    Car.updateR fl sin cos canvas c = Car.updateR fl sin₂ cos₂ canvas c := by
  have h : Car.moveR fl sin cos c = Car.moveR fl sin₂ cos₂ c := by
    have f₁ := moveR_frame fl sin cos c
    have f₂ := moveR_frame fl sin₂ cos₂ c
    apply Car.ext
    · rw [moveR_x, moveR_x, hs]
    · rw [moveR_y, moveR_y, hc]
    · rw [f₁.1, f₂.1]
    · rw [f₁.2.1, f₂.2.1]
    · rw [f₁.2.2.1, f₂.2.2.1]
    · rw [moveR_speed, moveR_speed]
    · rw [f₁.2.2.2.1, f₂.2.2.2.1]
    · rw [f₁.2.2.2.2.1, f₂.2.2.2.2.1]
    · rw [f₁.2.2.2.2.2.1, f₂.2.2.2.2.2.1]
    · rw [moveR_angle, moveR_angle]
    · rw [f₁.2.2.2.2.2.2.1, f₂.2.2.2.2.2.2.1]
    · rw [f₁.2.2.2.2.2.2.2, f₂.2.2.2.2.2.2.2]
  unfold Car.updateR
  rw [h]

/-- A run at heading 0 with no turn key held calls sin and cos at 0 only. -/
theorem animateR_heading0 (fl sin cos : K → K) (canvas : Canvas K) (n : ℕ) (c : Car K)
    (ha : c.angle = 0) (hl : c.controls.left = false) (hr : c.controls.right = false) :
    animateR fl sin cos canvas n c =
      animateR fl (fun _ => sin 0) (fun _ => cos 0) canvas n c := by
  induction n generalizing c with
  | zero => rfl
  | succ k ih =>
    have ht : turnR fl c.controls.left c.controls.right c.turnSpeed c.angle = 0 := by
      simp [turnR, hl, hr, ha]
    have hu : Car.updateR fl sin cos canvas c =
        Car.updateR fl (fun _ => sin 0) (fun _ => cos 0) canvas c :=
      updateR_trig fl sin cos _ _ canvas c (by rw [ht]) (by rw [ht])
    have f := updateR_frame fl sin cos canvas c
    show animateR fl sin cos canvas k (Car.updateR fl sin cos canvas c) =
      animateR fl (fun _ => sin 0) (fun _ => cos 0) canvas k
        (Car.updateR fl (fun _ => sin 0) (fun _ => cos 0) canvas c)
    rw [← hu]
    refine ih _ ?_ ?_ ?_
    · rw [updateR_angle, ht]
    · rw [f.2.2.2.2.2.2.2, hl]
    · rw [f.2.2.2.2.2.2.2, hr]

/-- The heading after n frames depends on the turn flags, turnSpeed and the starting
heading only; the flags and turnSpeed stay. -/
theorem animateR_turn (fl sin cos : K → K) (canvas : Canvas K) (n : ℕ) (c : Car K) :
    (animateR fl sin cos canvas n c).angle =
      (turnR fl c.controls.left c.controls.right c.turnSpeed)^[n] c.angle ∧
    (animateR fl sin cos canvas n c).controls = c.controls ∧
    (animateR fl sin cos canvas n c).turnSpeed = c.turnSpeed := by
  induction n with
  | zero => exact ⟨rfl, rfl, rfl⟩
  | succ k ih =>
    have f := updateR_frame fl sin cos canvas (animateR fl sin cos canvas k c)
    rw [animateR_succ]
    refine ⟨?_, f.2.2.2.2.2.2.2.trans ih.2.1, f.2.2.2.2.2.2.1.trans ih.2.2⟩
    rw [updateR_angle, ih.2.1, ih.2.2, ih.1, Function.iterate_succ_apply']

theorem setControlR_right (fl : K → K) (c : Car K) :
    (Car.setControlR fl "ArrowRight" true c).angle = c.angle ∧
    (Car.setControlR fl "ArrowRight" true c).turnSpeed = c.turnSpeed ∧
    (Car.setControlR fl "ArrowRight" true c).controls.left = c.controls.left ∧
    (Car.setControlR fl "ArrowRight" true c).controls.right = true := by
  simp [Car.setControlR]

/-- A position inside the borders is left alone by one axis of checkBorders, for every
monotone rounding that leaves the canvas size as it is. -/
theorem borderR_inside (fl : K → K) (hmono : Monotone fl) (limit extent p : K)
    (hlim : fl limit = limit) (h0 : 0 ≤ p) (h1 : p + extent ≤ limit) :
    borderR fl limit extent p = p := by
  have h2 : fl (p + extent) ≤ limit := by
    have := hmono h1
    rwa [hlim] at this
  simp only [borderR]
  rw [if_neg (not_lt.mpr h0), if_neg (not_lt.mpr h2)]

/-- Two stretches of a run, one after the other. -/
theorem iterate_chunk {α : Type} (f : α → α) (a b : ℕ) (x y z : α) (h₁ : f^[a] x = y)
    (h₂ : f^[b] y = z) : f^[a + b] x = z := by
  rw [add_comm, Function.iterate_add_apply, h₁, h₂]

/-- With a constant cosine the speed and y after n frames depend on the starting speed and y
only. -/
theorem animateR_speed_y (fl sin : K → K) (c₀ : K) (canvas : Canvas K) (n : ℕ) (c : Car K) :
    ((animateR fl sin (fun _ => c₀) canvas n c).speed,
      (animateR fl sin (fun _ => c₀) canvas n c).y) =
    (frameSpeedY fl c₀ c.friction c.maxSpeed c.height canvas.height)^[n] (c.speed, c.y) := by
  induction n with
  | zero => rfl
  | succ k ih =>
    have f := animateR_frame fl sin (fun _ => c₀) canvas k c
    rw [animateR_succ, Function.iterate_succ_apply', ← ih, updateR_speed, updateR_y, moveR_y,
      f.2.1, f.2.2.1, f.2.2.2]
    rfl

/-! ## Properties of the binary64 rounding

The rounding function maps 0 to 0, commutes with negation, keeps the sign and is monotone:
the facts about IEEE rounding that the bounds below rest on. -/

theorem pow2_eq (e : ℤ) : pow2 e = (2 : ℚ) ^ e := by
  unfold pow2
  split_ifs with h
  · obtain ⟨n, rfl⟩ := Int.eq_ofNat_of_zero_le h
    simp
  · push_neg at h
    obtain ⟨n, hn⟩ := Int.eq_ofNat_of_zero_le (by omega : 0 ≤ -e)
    have : e = -(n : ℤ) := by omega
    subst this
    simp

theorem pow2_pos (e : ℤ) : 0 < pow2 e := by
  rw [pow2_eq]
  positivity

theorem log2Fuel_spec (fuel n : ℕ) (h1 : 1 ≤ n) (h2 : n ≤ fuel) :
    2 ^ log2Fuel fuel n ≤ n ∧ n < 2 ^ (log2Fuel fuel n + 1) := by
  induction fuel generalizing n with
  | zero => omega
  | succ k ih =>
    unfold log2Fuel
    split_ifs with h
    · constructor <;> simp <;> omega
    · have := ih (n / 2) (by omega) (by omega)
      constructor
      · rw [pow_succ]
        omega
      · rw [pow_succ]
        omega

theorem natLog2_spec (n : ℕ) (h1 : 1 ≤ n) :
    2 ^ natLog2 n ≤ n ∧ n < 2 ^ (natLog2 n + 1) :=
  log2Fuel_spec n n h1 (le_refl n)

theorem ilog2_spec (r : ℚ) (hr : 0 < r) :
    (2 : ℚ) ^ ilog2 r ≤ r ∧ r < (2 : ℚ) ^ (ilog2 r + 1) := by
  have hnum : 0 < r.num := Rat.num_pos.mpr hr
  have hn1 : 1 ≤ r.num.natAbs := by omega
  have hd1 : 1 ≤ r.den := r.den_pos
  obtain ⟨hn_lo, hn_hi⟩ := natLog2_spec r.num.natAbs hn1
  obtain ⟨hd_lo, hd_hi⟩ := natLog2_spec r.den hd1
  have hrq : r = (r.num.natAbs : ℚ) / (r.den : ℚ) := by
    have h2 : (r.num.natAbs : ℚ) = (r.num : ℚ) := by
      have h3 := Int.natAbs_of_nonneg (le_of_lt hnum)
      calc (r.num.natAbs : ℚ) = ((r.num.natAbs : ℤ) : ℚ) := (Int.cast_natCast _).symm
        _ = (r.num : ℚ) := by rw [h3]
    rw [h2]
    exact (Rat.num_div_den r).symm
  set n := r.num.natAbs with hn
  set d := r.den with hd
  have hdq : (0 : ℚ) < (d : ℚ) := by exact_mod_cast hd1
  have a1 : (2 : ℚ) ^ (natLog2 n) ≤ (n : ℚ) := by exact_mod_cast hn_lo
  have a2 : (n : ℚ) < (2 : ℚ) ^ (natLog2 n + 1) := by exact_mod_cast hn_hi
  have b1 : (2 : ℚ) ^ (natLog2 d) ≤ (d : ℚ) := by exact_mod_cast hd_lo
  have b2 : (d : ℚ) < (2 : ℚ) ^ (natLog2 d + 1) := by exact_mod_cast hd_hi
  have p1 : (0 : ℚ) < (2 : ℚ) ^ (natLog2 n) := by positivity
  have p2 : (0 : ℚ) < (2 : ℚ) ^ (natLog2 d) := by positivity
  -- the candidate exponent
  have hl : (2 : ℚ) ^ ((natLog2 n : ℤ) - (natLog2 d : ℤ)) =
      (2 : ℚ) ^ (natLog2 n) / (2 : ℚ) ^ (natLog2 d) := by
    rw [zpow_sub₀ (by norm_num : (2 : ℚ) ≠ 0), zpow_natCast, zpow_natCast]
  have up : r < (2 : ℚ) ^ ((natLog2 n : ℤ) - (natLog2 d : ℤ) + 1) := by
    rw [zpow_add_one₀ (by norm_num : (2 : ℚ) ≠ 0), hl, hrq, div_mul_eq_mul_div,
      div_lt_div_iff₀ hdq p2]
    rw [pow_succ] at a2
    nlinarith
  have lo : (2 : ℚ) ^ ((natLog2 n : ℤ) - (natLog2 d : ℤ) - 1) ≤ r := by
    rw [zpow_sub_one₀ (by norm_num : (2 : ℚ) ≠ 0), hl, hrq, div_mul_eq_mul_div,
      div_le_div_iff₀ p2 hdq]
    rw [pow_succ] at b2
    have : (2 : ℚ) ^ natLog2 n * (2 : ℚ)⁻¹ * (d : ℚ) ≤ (n : ℚ) * (2 : ℚ) ^ natLog2 d := by
      have h3 : (2 : ℚ) ^ natLog2 n * (d : ℚ) ≤ (n : ℚ) * ((2 : ℚ) ^ natLog2 d * 2) := by
        nlinarith
      linarith
    exact this
  unfold ilog2
  simp only
  split_ifs with h
  · rw [pow2_eq] at h
    exact ⟨h, up⟩
  · rw [pow2_eq, not_le] at h
    refine ⟨lo, ?_⟩
    rw [sub_add_cancel]
    exact h

theorem ilog2_mono (a b : ℚ) (ha : 0 < a) (hab : a ≤ b) : ilog2 a ≤ ilog2 b := by
  obtain ⟨a1, _⟩ := ilog2_spec a ha
  obtain ⟨_, b2⟩ := ilog2_spec b (lt_of_lt_of_le ha hab)
  have h : (2 : ℚ) ^ ilog2 a < (2 : ℚ) ^ (ilog2 b + 1) := lt_of_le_of_lt (le_trans a1 hab) b2
  have := (zpow_lt_zpow_iff_right₀ (by norm_num : (1 : ℚ) < 2)).mp h
  omega

theorem rne_bounds (x : ℚ) : ⌊x⌋ ≤ rne x ∧ rne x ≤ ⌊x⌋ + 1 := by
  unfold rne
  simp only
  split_ifs <;> constructor <;> omega

theorem rne_intCast (n : ℤ) : rne (n : ℚ) = n := by
  unfold rne
  simp

theorem rne_mono (x y : ℚ) (h : x ≤ y) : rne x ≤ rne y := by
  have hf : ⌊x⌋ ≤ ⌊y⌋ := Int.floor_mono h
  rcases lt_or_eq_of_le hf with hlt | heq
  · have := (rne_bounds x).2
    have := (rne_bounds y).1
    omega
  · unfold rne
    simp only
    rw [← heq]
    have hxy : x - (⌊x⌋ : ℚ) ≤ y - (⌊x⌋ : ℚ) := by linarith
    split_ifs <;> first | omega | (exfalso; linarith)

theorem rne_neg (x : ℚ) : rne (-x) = -rne x := by
  by_cases hx : (⌊x⌋ : ℚ) = x
  · rw [← hx, ← Int.cast_neg, rne_intCast, rne_intCast]
  · have h1 : (⌊x⌋ : ℚ) < x := lt_of_le_of_ne (Int.floor_le x) hx
    have h2 : x < (⌊x⌋ : ℚ) + 1 := Int.lt_floor_add_one x
    have hfl : ⌊-x⌋ = -⌊x⌋ - 1 := by
      rw [Int.floor_eq_iff]
      push_cast
      constructor <;> linarith
    unfold rne
    simp only
    rw [hfl]
    push_cast
    split_ifs <;> first | omega | (exfalso; linarith)

theorem rne_nonneg (x : ℚ) (h : 0 ≤ x) : 0 ≤ rne x :=
  le_trans (Int.floor_nonneg.mpr h) (rne_bounds x).1

theorem rne_small (x : ℚ) (h0 : 0 ≤ x) (h1 : x < 1 / 2) : rne x = 0 := by
  have hf : ⌊x⌋ = 0 := by
    rw [Int.floor_eq_iff]
    constructor
    · simpa using h0
    · simp only [Int.cast_zero, zero_add]
      linarith
  unfold rne
  simp only
  rw [hf]
  have h : x - ((0 : ℤ) : ℚ) < 1 / 2 := by
    rw [Int.cast_zero, sub_zero]
    exact h1
  rw [if_pos h]

theorem round64_zero : round64 0 = 0 := by
  unfold round64
  simp

theorem round64_neg (q : ℚ) : round64 (-q) = -round64 q := by
  unfold round64
  by_cases hq : q = 0
  · simp [hq]
  · have hq2 : -q ≠ 0 := neg_ne_zero.mpr hq
    rw [if_neg hq, if_neg hq2]
    simp only [abs_neg, neg_div, rne_neg]
    push_cast
    ring

theorem round64_nonneg (q : ℚ) (h : 0 ≤ q) : 0 ≤ round64 q := by
  unfold round64
  split_ifs with hq
  · exact le_refl 0
  · simp only
    have hp := pow2_pos (max (ilog2 |q| - 52) (-1074))
    have : 0 ≤ rne (q / pow2 (max (ilog2 |q| - 52) (-1074))) :=
      rne_nonneg _ (div_nonneg h (le_of_lt hp))
    have h2 : (0 : ℚ) ≤ (rne (q / pow2 (max (ilog2 |q| - 52) (-1074))) : ℚ) := by
      exact_mod_cast this
    exact mul_nonneg h2 (le_of_lt hp)

/-- The rounding of a positive q on its own grid. -/
theorem round64_pos_eq (q : ℚ) (h : 0 < q) :
    round64 q = (rne (q / (2 : ℚ) ^ max (ilog2 q - 52) (-1074)) : ℚ) *
      (2 : ℚ) ^ max (ilog2 q - 52) (-1074) := by
  unfold round64
  rw [if_neg (ne_of_gt h)]
  simp only [abs_of_pos h, pow2_eq]

theorem rne_le_of_le_int (x : ℚ) (n : ℤ) (h : x ≤ (n : ℚ)) : rne x ≤ n := by
  have := rne_mono x n h
  rwa [rne_intCast] at this

theorem le_rne_of_int_le (x : ℚ) (n : ℤ) (h : (n : ℚ) ≤ x) : n ≤ rne x := by
  have := rne_mono n x h
  rwa [rne_intCast] at this

theorem two_zpow_toNat (k : ℤ) (hk : 0 ≤ k) : (2 : ℚ) ^ k = (((2 : ℤ) ^ k.toNat : ℤ) : ℚ) := by
  obtain ⟨n, rfl⟩ := Int.eq_ofNat_of_zero_le hk
  simp

/-- On a grid 2^e that contains the power of two 2^g, rounding a value at most 2^g to the
grid gives at most 2^g. -/
theorem grid_round_le (x : ℚ) (e g : ℤ) (hge : e ≤ g) (hx : x ≤ (2 : ℚ) ^ g) :
    (rne (x / (2 : ℚ) ^ e) : ℚ) * (2 : ℚ) ^ e ≤ (2 : ℚ) ^ g := by
  have hp : (0 : ℚ) < (2 : ℚ) ^ e := by positivity
  have h1 : x / (2 : ℚ) ^ e ≤ (2 : ℚ) ^ (g - e) := by
    rw [zpow_sub₀ (by norm_num : (2 : ℚ) ≠ 0)]
    exact div_le_div_of_nonneg_right hx (le_of_lt hp)
  rw [two_zpow_toNat (g - e) (by omega)] at h1
  have h2 := rne_le_of_le_int _ _ h1
  have h3 : (rne (x / (2 : ℚ) ^ e) : ℚ) ≤ (((2 : ℤ) ^ (g - e).toNat : ℤ) : ℚ) := by
    exact_mod_cast h2
  rw [← two_zpow_toNat (g - e) (by omega)] at h3
  calc (rne (x / (2 : ℚ) ^ e) : ℚ) * (2 : ℚ) ^ e
      ≤ (2 : ℚ) ^ (g - e) * (2 : ℚ) ^ e := mul_le_mul_of_nonneg_right h3 (le_of_lt hp)
    _ = (2 : ℚ) ^ g := by
      rw [← zpow_add₀ (by norm_num : (2 : ℚ) ≠ 0)]
      congr 1
      omega

/-- On a grid 2^e that contains the power of two 2^g, rounding a value at least 2^g to the
grid gives at least 2^g. -/
theorem grid_le_round (x : ℚ) (e g : ℤ) (hge : e ≤ g) (hx : (2 : ℚ) ^ g ≤ x) :
    (2 : ℚ) ^ g ≤ (rne (x / (2 : ℚ) ^ e) : ℚ) * (2 : ℚ) ^ e := by
  have hp : (0 : ℚ) < (2 : ℚ) ^ e := by positivity
  have h1 : (2 : ℚ) ^ (g - e) ≤ x / (2 : ℚ) ^ e := by
    rw [zpow_sub₀ (by norm_num : (2 : ℚ) ≠ 0)]
    exact div_le_div_of_nonneg_right hx (le_of_lt hp)
  rw [two_zpow_toNat (g - e) (by omega)] at h1
  have h2 := le_rne_of_int_le _ _ h1
  have h3 : (((2 : ℤ) ^ (g - e).toNat : ℤ) : ℚ) ≤ (rne (x / (2 : ℚ) ^ e) : ℚ) := by
    exact_mod_cast h2
  rw [← two_zpow_toNat (g - e) (by omega)] at h3
  calc (2 : ℚ) ^ g = (2 : ℚ) ^ (g - e) * (2 : ℚ) ^ e := by
        rw [← zpow_add₀ (by norm_num : (2 : ℚ) ≠ 0)]
        congr 1
        omega
    _ ≤ (rne (x / (2 : ℚ) ^ e) : ℚ) * (2 : ℚ) ^ e :=
        mul_le_mul_of_nonneg_right h3 (le_of_lt hp)

theorem round64_mono_pos (a b : ℚ) (ha : 0 < a) (hab : a ≤ b) : round64 a ≤ round64 b := by
  have hb : 0 < b := lt_of_lt_of_le ha hab
  have hL := ilog2_mono a b ha hab
  obtain ⟨_, a2⟩ := ilog2_spec a ha
  obtain ⟨b1, _⟩ := ilog2_spec b hb
  rw [round64_pos_eq a ha, round64_pos_eq b hb]
  rcases eq_or_lt_of_le (max_le_max (sub_le_sub_right hL 52) (le_refl (-1074 : ℤ)))
    with heq | hlt
  · rw [heq]
    have hp : (0 : ℚ) < (2 : ℚ) ^ max (ilog2 b - 52) (-1074) := by positivity
    have h1 := rne_mono _ _ (div_le_div_of_nonneg_right hab (le_of_lt hp))
    have h2 : (rne (a / (2 : ℚ) ^ max (ilog2 b - 52) (-1074)) : ℚ) ≤
        (rne (b / (2 : ℚ) ^ max (ilog2 b - 52) (-1074)) : ℚ) := by exact_mod_cast h1
    exact mul_le_mul_of_nonneg_right h2 (le_of_lt hp)
  · -- different grids: a power of two lies between a and b
    have heb : max (ilog2 b - 52) (-1074) = ilog2 b - 52 := by omega
    have hLL : ilog2 a + 1 ≤ ilog2 b := by omega
    have hmid : (2 : ℚ) ^ (ilog2 a + 1) ≤ (2 : ℚ) ^ ilog2 b :=
      zpow_le_zpow_right₀ (by norm_num : (1 : ℚ) ≤ 2) hLL
    have hupper : (2 : ℚ) ^ ilog2 b ≤
        (rne (b / (2 : ℚ) ^ max (ilog2 b - 52) (-1074)) : ℚ) *
          (2 : ℚ) ^ max (ilog2 b - 52) (-1074) :=
      grid_le_round b _ _ (by omega) b1
    have hlower : (rne (a / (2 : ℚ) ^ max (ilog2 a - 52) (-1074)) : ℚ) *
        (2 : ℚ) ^ max (ilog2 a - 52) (-1074) ≤ (2 : ℚ) ^ (ilog2 a + 1) := by
      by_cases hg : max (ilog2 a - 52) (-1074) ≤ ilog2 a + 1
      · exact grid_round_le a _ _ hg (le_of_lt a2)
      · -- a is below half of the smallest subnormal: it rounds to 0
        push_neg at hg
        have hp : (0 : ℚ) < (2 : ℚ) ^ max (ilog2 a - 52) (-1074) := by positivity
        have hsmall : a / (2 : ℚ) ^ max (ilog2 a - 52) (-1074) < 1 / 2 := by
          rw [div_lt_iff₀ hp]
          calc a < (2 : ℚ) ^ (ilog2 a + 1) := a2
            _ ≤ (2 : ℚ) ^ (max (ilog2 a - 52) (-1074) - 1) :=
                zpow_le_zpow_right₀ (by norm_num : (1 : ℚ) ≤ 2) (by omega)
            _ = 1 / 2 * (2 : ℚ) ^ max (ilog2 a - 52) (-1074) := by
                rw [zpow_sub_one₀ (by norm_num : (2 : ℚ) ≠ 0)]
                ring
        rw [rne_small _ (div_nonneg (le_of_lt ha) (le_of_lt hp)) hsmall]
        simp only [Int.cast_zero, zero_mul]
        positivity
    exact le_trans hlower (le_trans hmid hupper)

theorem round64_monotone : Monotone round64 := by
  intro a b hab
  rcases lt_trichotomy a 0 with ha | ha | ha
  · rcases lt_or_le b 0 with hb | hb
    · have h := round64_mono_pos (-b) (-a) (by linarith) (by linarith)
      rw [round64_neg, round64_neg] at h
      linarith
    · have h1 := round64_nonneg (-a) (by linarith)
      rw [round64_neg] at h1
      have h2 := round64_nonneg b hb
      linarith
  · rw [ha, round64_zero]
    exact round64_nonneg b (by linarith)
  · exact round64_mono_pos a b ha hab

/-! ## A run in binary64: seven ArrowDown key-downs on a 300 by 150 canvas

The car of car.js line 114 on a canvas 300 wide and 150 high: the first frame puts it at
x = 270, y = 100; seven ArrowDown key-downs give speed -7; 70 frames later the speed is
-293 * 2^-55 and y is 100 + 2^-46. -/

theorem backing_start :
    (((Car.setControlR round64 "ArrowDown" true)^[7]
        (Car.updateR round64 (fun _ => 0) (fun _ => 1) ⟨300, 150⟩ carR)).friction =
          3602879701896397 / 36028797018963968 ∧
      ((Car.setControlR round64 "ArrowDown" true)^[7]
        (Car.updateR round64 (fun _ => 0) (fun _ => 1) ⟨300, 150⟩ carR)).maxSpeed = 10 ∧
      ((Car.setControlR round64 "ArrowDown" true)^[7]
        (Car.updateR round64 (fun _ => 0) (fun _ => 1) ⟨300, 150⟩ carR)).height = 50 ∧
      ((Car.setControlR round64 "ArrowDown" true)^[7]
        (Car.updateR round64 (fun _ => 0) (fun _ => 1) ⟨300, 150⟩ carR)).speed = -7 ∧
      ((Car.setControlR round64 "ArrowDown" true)^[7]
        (Car.updateR round64 (fun _ => 0) (fun _ => 1) ⟨300, 150⟩ carR)).y = 100) ∧
    ((Car.setControlR round64 "ArrowDown" true)^[7]
        (Car.updateR round64 (fun _ => 0) (fun _ => 1) ⟨300, 150⟩ carR)).angle = 0 ∧
    ((Car.setControlR round64 "ArrowDown" true)^[7]
        (Car.updateR round64 (fun _ => 0) (fun _ => 1) ⟨300, 150⟩ carR)).controls.left =
          false ∧
    ((Car.setControlR round64 "ArrowDown" true)^[7]
        (Car.updateR round64 (fun _ => 0) (fun _ => 1) ⟨300, 150⟩ carR)).controls.right =
          false := by
  refine ⟨⟨?_, ?_, ?_, ?_, ?_⟩, ?_, ?_, ?_⟩ <;> decide!

theorem backing_frames_10 :
    (frameSpeedY round64 1 (3602879701896397 / 36028797018963968) 10 50 150)^[10]
      (-7, 100) =
        (-(1688849860263937 / 281474976710656), 100) := by
  decide!

theorem backing_frames_20 :
    (frameSpeedY round64 1 (3602879701896397 / 36028797018963968) 10 50 150)^[10]
      (-(1688849860263937 / 281474976710656), 100) =
        (-(703687441776641 / 140737488355328), 100) := by
  decide!

theorem backing_frames_30 :
    (frameSpeedY round64 1 (3602879701896397 / 36028797018963968) 10 50 150)^[10]
      (-(703687441776641 / 140737488355328), 100) =
        (-(1125899906842627 / 281474976710656), 100) := by
  decide!

theorem backing_frames_40 :
    (frameSpeedY round64 1 (3602879701896397 / 36028797018963968) 10 50 150)^[10]
      (-(1125899906842627 / 281474976710656), 100) =
        (-(3377699720527883 / 1125899906842624), 100) := by
  decide!

theorem backing_frames_50 :
    (frameSpeedY round64 1 (3602879701896397 / 36028797018963968) 10 50 150)^[10]
      (-(3377699720527883 / 1125899906842624), 100) =
        (-(1125899906842629 / 562949953421312), 100) := by
  decide!

theorem backing_frames_60 :
    (frameSpeedY round64 1 (3602879701896397 / 36028797018963968) 10 50 150)^[10]
      (-(1125899906842629 / 562949953421312), 100) =
        (-(1125899906842633 / 1125899906842624), 100) := by
  decide!

theorem backing_frames_70 :
    (frameSpeedY round64 1 (3602879701896397 / 36028797018963968) 10 50 150)^[10]
      (-(1125899906842633 / 1125899906842624), 100) =
        (-(293 / 36028797018963968), 100 + 1 / 70368744177664) := by
  decide!

theorem backing_run :
    (frameSpeedY round64 1 (3602879701896397 / 36028797018963968) 10 50 150)^[70]
      (-7, 100) = (-(293 / 36028797018963968), 100 + 1 / 70368744177664) :=
  iterate_chunk _ 60 10 _ _ _ (iterate_chunk _ 50 10 _ _ _
    (iterate_chunk _ 40 10 _ _ _ (iterate_chunk _ 30 10 _ _ _
      (iterate_chunk _ 20 10 _ _ _
        (iterate_chunk _ 10 10 _ _ _ backing_frames_10 backing_frames_20)
        backing_frames_30) backing_frames_40) backing_frames_50) backing_frames_60)
    backing_frames_70

theorem backing_pair :
    ((animateR round64 (fun _ => 0) (fun _ => 1) ⟨300, 150⟩ 70
        ((Car.setControlR round64 "ArrowDown" true)^[7]
          (Car.updateR round64 (fun _ => 0) (fun _ => 1) ⟨300, 150⟩ carR))).speed,
      (animateR round64 (fun _ => 0) (fun _ => 1) ⟨300, 150⟩ 70
        ((Car.setControlR round64 "ArrowDown" true)^[7]
          (Car.updateR round64 (fun _ => 0) (fun _ => 1) ⟨300, 150⟩ carR))).y) =
    (frameSpeedY round64 1 (3602879701896397 / 36028797018963968) 10 50 150)^[70]
      (-7, 100) := by
  have h := animateR_speed_y round64 (fun _ => 0) 1 ⟨300, 150⟩ 70
    ((Car.setControlR round64 "ArrowDown" true)^[7]
      (Car.updateR round64 (fun _ => 0) (fun _ => 1) ⟨300, 150⟩ carR))
  rw [backing_start.1.1, backing_start.1.2.1, backing_start.1.2.2.1,
    backing_start.1.2.2.2.1, backing_start.1.2.2.2.2] at h
  exact h

/-- The run is the same for all library functions with sin 0 = 0 and cos 0 = 1: the heading
stays 0. -/
theorem backing_trig (sin cos : ℚ → ℚ) (hs : sin 0 = 0) (hc : cos 0 = 1) :
    animateR round64 sin cos ⟨300, 150⟩ 70
      ((Car.setControlR round64 "ArrowDown" true)^[7]
        (Car.updateR round64 sin cos ⟨300, 150⟩ carR)) =
    animateR round64 (fun _ => 0) (fun _ => 1) ⟨300, 150⟩ 70
      ((Car.setControlR round64 "ArrowDown" true)^[7]
        (Car.updateR round64 (fun _ => 0) (fun _ => 1) ⟨300, 150⟩ carR)) := by
  have ht : turnR round64 carR.controls.left carR.controls.right carR.turnSpeed
      carR.angle = 0 := by decide!
  have h1 : Car.updateR round64 sin cos ⟨300, 150⟩ carR =
      Car.updateR round64 (fun _ => 0) (fun _ => 1) ⟨300, 150⟩ carR :=
    updateR_trig round64 sin cos _ _ _ carR (by rw [ht]; exact hs) (by rw [ht]; exact hc)
  rw [h1, animateR_heading0 round64 sin cos _ 70 _ backing_start.2.1 backing_start.2.2.1
    backing_start.2.2.2]
  simp only [hs, hc]

theorem backing_run_y (sin cos : ℚ → ℚ) (hs : sin 0 = 0) (hc : cos 0 = 1) :
    (animateR round64 sin cos ⟨300, 150⟩ 70
      ((Car.setControlR round64 "ArrowDown" true)^[7]
        (Car.updateR round64 sin cos ⟨300, 150⟩ carR))).y = 100 + 1 / 70368744177664 := by
  rw [backing_trig sin cos hs hc]
  exact (Prod.mk.inj (backing_pair.trans backing_run)).2

/-! ## The claims -/

/-- C1. Speed bound after advance: for every car with maxSpeed at least 0 and any starting
speed, the speed after one update lies between -maxSpeed and maxSpeed, and so does the
speed after each frame of every run of the frame loop. -/
theorem C1_speed_bound (sin cos : K → K) (canvas : Canvas K) (c : Car K)
    (hm : 0 ≤ c.maxSpeed) :
    (-c.maxSpeed ≤ (Car.update sin cos canvas c).speed ∧
      (Car.update sin cos canvas c).speed ≤ c.maxSpeed) ∧
    ∀ n : Nat, -c.maxSpeed ≤ (animate sin cos canvas (n + 1) c).speed ∧
      (animate sin cos canvas (n + 1) c).speed ≤ c.maxSpeed := by
  refine ⟨?_, fun n => ?_⟩
  · rw [update_speed]
    exact capped_bounds _ _ hm
  · rw [animate_succ, update_speed, animate_maxSpeed]
    exact capped_bounds _ _ hm

/-- C1, at a concrete input: the car of car.js line 114 with its speed set to 25, far
outside the range, on an 800 by 600 canvas over the reals. -/
theorem C1_speed_bound_witness :
    (0 : ℝ) ≤ (withSpeed 25 car : Car ℝ).maxSpeed ∧
    ((-(withSpeed 25 car : Car ℝ).maxSpeed ≤
        (Car.update Real.sin Real.cos ⟨800, 600⟩ (withSpeed 25 car)).speed ∧
      (Car.update Real.sin Real.cos ⟨800, 600⟩ (withSpeed 25 car)).speed ≤
        (withSpeed 25 car : Car ℝ).maxSpeed) ∧
    ∀ n : Nat,
      -(withSpeed 25 car : Car ℝ).maxSpeed ≤
        (animate Real.sin Real.cos ⟨800, 600⟩ (n + 1) (withSpeed 25 car)).speed ∧
      (animate Real.sin Real.cos ⟨800, 600⟩ (n + 1) (withSpeed 25 car)).speed ≤
        (withSpeed 25 car : Car ℝ).maxSpeed) :=
  ⟨by norm_num [withSpeed, car, Car.constructor],
    C1_speed_bound Real.sin Real.cos ⟨800, 600⟩ (withSpeed 25 car)
      (by norm_num [withSpeed, car, Car.constructor])⟩

/-- C2, as stated, fails in two ways.  On a canvas 20 wide the car of car.js line 114
(30 wide), at rest, is put at x = 20 - 30 = -10 by one update, below the lower bound 0 of the
claim.  And in binary64, on a canvas 300 by 150 (larger than the car), the run of the program
made of a first frame, seven ArrowDown key-downs and 70 more frames ends an update at
y = 100 + 2^-46, above canvas.height - height = 100: the sum y + height rounds to 150, so the
bottom-edge test does not fire. -/
theorem C2_position_bound_counterexample :
    ((Car.update Real.sin Real.cos ⟨20, 600⟩ (car : Car ℝ)).x = -10 ∧
      ¬ ((0 ≤ (Car.update Real.sin Real.cos ⟨20, 600⟩ (car : Car ℝ)).x ∧
          (Car.update Real.sin Real.cos ⟨20, 600⟩ (car : Car ℝ)).x ≤
            20 - (car : Car ℝ).width) ∧
        (0 ≤ (Car.update Real.sin Real.cos ⟨20, 600⟩ (car : Car ℝ)).y ∧
          (Car.update Real.sin Real.cos ⟨20, 600⟩ (car : Car ℝ)).y ≤
            600 - (car : Car ℝ).height))) ∧
    ((carR.width ≤ 300 ∧ carR.height ≤ 150) ∧
      ∀ sin cos : ℚ → ℚ, sin 0 = 0 → cos 0 = 1 →
        (animateR round64 sin cos ⟨300, 150⟩ 70
          ((Car.setControlR round64 "ArrowDown" true)^[7]
            (Car.updateR round64 sin cos ⟨300, 150⟩ carR))).y = 100 + 1 / 70368744177664 ∧
        ¬ ((animateR round64 sin cos ⟨300, 150⟩ 70
          ((Car.setControlR round64 "ArrowDown" true)^[7]
            (Car.updateR round64 sin cos ⟨300, 150⟩ carR))).y ≤ 150 - carR.height)) := by
  have hx : (Car.update Real.sin Real.cos ⟨20, 600⟩ (car : Car ℝ)).x = -10 := by
    rw [update_x]
    norm_num [bordered, turned, capped, decayed, car, Car.constructor]
  refine ⟨⟨hx, fun h => ?_⟩, ⟨by decide!, by decide!⟩, fun sin cos hs hc => ?_⟩
  · have h0 := h.1.1
    rw [hx] at h0
    norm_num at h0
  · rw [backing_run_y sin cos hs hc]
    exact ⟨rfl, by decide!⟩

/-- C2, amended.  For every state and every canvas size, after one update and after each
frame of every run: x is at least 0 when width is at most canvas.width, and y is at least 0
when height is at most canvas.height (for every rounding fl that keeps the sign, binary64
included).  At the far edges the code guarantees what its own test computes: x is the computed
canvas.width - width, or the computed sum x + width does not exceed canvas.width, and
likewise for y.  In exact arithmetic this is x at most canvas.width - width and y at most
canvas.height - height, for every canvas size. -/
theorem C2_position_bound (fl : K → K) (hfl : ∀ a : K, 0 ≤ a → 0 ≤ fl a) (sin cos : K → K)
    (canvas : Canvas K) (c : Car K) :
    ((c.width ≤ canvas.width → 0 ≤ (Car.updateR fl sin cos canvas c).x) ∧
      (c.height ≤ canvas.height → 0 ≤ (Car.updateR fl sin cos canvas c).y) ∧
      ((Car.updateR fl sin cos canvas c).x = fl (canvas.width - c.width) ∨
        fl ((Car.updateR fl sin cos canvas c).x + c.width) ≤ canvas.width) ∧
      ((Car.updateR fl sin cos canvas c).y = fl (canvas.height - c.height) ∨
        fl ((Car.updateR fl sin cos canvas c).y + c.height) ≤ canvas.height)) ∧
    (∀ n : ℕ,
      (c.width ≤ canvas.width → 0 ≤ (animateR fl sin cos canvas (n + 1) c).x) ∧
      (c.height ≤ canvas.height → 0 ≤ (animateR fl sin cos canvas (n + 1) c).y) ∧
      ((animateR fl sin cos canvas (n + 1) c).x = fl (canvas.width - c.width) ∨
        fl ((animateR fl sin cos canvas (n + 1) c).x + c.width) ≤ canvas.width) ∧
      ((animateR fl sin cos canvas (n + 1) c).y = fl (canvas.height - c.height) ∨
        fl ((animateR fl sin cos canvas (n + 1) c).y + c.height) ≤ canvas.height)) ∧
    ((Car.update sin cos canvas c).x ≤ canvas.width - c.width ∧
      (Car.update sin cos canvas c).y ≤ canvas.height - c.height ∧
      ∀ n : ℕ, (animate sin cos canvas (n + 1) c).x ≤ canvas.width - c.width ∧
        (animate sin cos canvas (n + 1) c).y ≤ canvas.height - c.height) := by
  have one : ∀ d : Car K,
      (d.width ≤ canvas.width → 0 ≤ (Car.updateR fl sin cos canvas d).x) ∧
      (d.height ≤ canvas.height → 0 ≤ (Car.updateR fl sin cos canvas d).y) ∧
      ((Car.updateR fl sin cos canvas d).x = fl (canvas.width - d.width) ∨
        fl ((Car.updateR fl sin cos canvas d).x + d.width) ≤ canvas.width) ∧
      ((Car.updateR fl sin cos canvas d).y = fl (canvas.height - d.height) ∨
        fl ((Car.updateR fl sin cos canvas d).y + d.height) ≤ canvas.height) := by
    intro d
    refine ⟨fun hw => ?_, fun hh => ?_, ?_, ?_⟩
    · rw [updateR_x]
      exact borderR_nonneg fl hfl _ _ _ hw
    · rw [updateR_y]
      exact borderR_nonneg fl hfl _ _ _ hh
    · rw [updateR_x]
      exact borderR_far fl _ _ _
    · rw [updateR_y]
      exact borderR_far fl _ _ _
  refine ⟨one c, fun n => ?_, ?_, ?_, fun n => ⟨?_, ?_⟩⟩
  · have f := animateR_frame fl sin cos canvas n c
    have h := one (animateR fl sin cos canvas n c)
    rw [f.1, f.2.1] at h
    rw [animateR_succ]
    exact h
  · rw [update_x]
    exact bordered_le _ _ _
  · rw [update_y]
    exact bordered_le _ _ _
  · rw [animate_succ, update_x, animate_width]
    exact bordered_le _ _ _
  · rw [animate_succ, update_y, animate_height]
    exact bordered_le _ _ _

/-- C2 amended, at a concrete input in binary64: the car of car.js line 114 after 25
accelerate calls, on an 800 by 600 canvas. -/
theorem C2_position_bound_witness :
    ((∀ a : ℚ, 0 ≤ a → 0 ≤ round64 a) ∧
      ((Car.accelerateR round64)^[25] carR).width ≤ 800 ∧
      ((Car.accelerateR round64)^[25] carR).height ≤ 600) ∧
    ∀ sin cos : ℚ → ℚ,
      0 ≤ (Car.updateR round64 sin cos ⟨800, 600⟩ ((Car.accelerateR round64)^[25] carR)).x ∧
      0 ≤ (Car.updateR round64 sin cos ⟨800, 600⟩ ((Car.accelerateR round64)^[25] carR)).y :=
  ⟨⟨round64_nonneg, by decide!, by decide!⟩, fun sin cos =>
    ⟨(C2_position_bound round64 round64_nonneg sin cos ⟨800, 600⟩
        ((Car.accelerateR round64)^[25] carR)).1.1 (by decide!),
      (C2_position_bound round64 round64_nonneg sin cos ⟨800, 600⟩
        ((Car.accelerateR round64)^[25] carR)).1.2.1 (by decide!)⟩⟩

/-- C3. The position that move leaves (the one checkBorders then receives) is
x + sin(heading') * speed' and y - cos(heading') * speed', where heading' is the angle after
the turning statements and speed' the speed after friction and the speed cap, and these are
the angle and speed that move stores.  With sin 0 = 0 and cos 0 = 1, at heading 0 with no
turn key held x is unchanged and y decreases by exactly speed'.  Scenario: one accelerate on
a fresh car (speed 1, friction 0.1, heading 0) followed by one update, with the car inside
the canvas and room above, gives speed 0.9, y decreased by 0.9 and x unchanged. -/
theorem C3_position_integration (sin cos : K → K) (canvas : Canvas K) (c : Car K) :
    ((Car.move sin cos c).angle = turned c ∧
      (Car.move sin cos c).speed = capped c.maxSpeed (decayed c) ∧
      (Car.move sin cos c).x = c.x + sin (turned c) * capped c.maxSpeed (decayed c) ∧
      (Car.move sin cos c).y = c.y - cos (turned c) * capped c.maxSpeed (decayed c) ∧
      (Car.move sin cos c).x = c.x + sin (Car.move sin cos c).angle * (Car.move sin cos c).speed ∧
      (Car.move sin cos c).y =
        c.y - cos (Car.move sin cos c).angle * (Car.move sin cos c).speed) ∧
    (sin 0 = 0 → cos 0 = 1 → c.angle = 0 → c.controls.left = false →
      c.controls.right = false →
      (Car.move sin cos c).x = c.x ∧
      (Car.move sin cos c).y = c.y - (Car.move sin cos c).speed) ∧
    (∀ (x y width height : K) (color : String),
      sin 0 = 0 → cos 0 = 1 →
      0 ≤ x → x + width ≤ canvas.width → 9 / 10 ≤ y → y - 9 / 10 + height ≤ canvas.height →
      (Car.accelerate (Car.constructor x y width height color)).speed = 1 ∧
      (Car.update sin cos canvas
        (Car.accelerate (Car.constructor x y width height color))).speed = 9 / 10 ∧
      (Car.update sin cos canvas
        (Car.accelerate (Car.constructor x y width height color))).y = y - 9 / 10 ∧
      (Car.update sin cos canvas
        (Car.accelerate (Car.constructor x y width height color))).x = x) := by
  refine ⟨⟨move_angle sin cos c, move_speed sin cos c, move_x sin cos c, move_y sin cos c,
    ?_, ?_⟩, ?_, ?_⟩
  · rw [move_angle, move_speed, move_x]
  · rw [move_angle, move_speed, move_y]
  · intro hs hc ha hl hr
    have ht : turned c = 0 := by simp [turned, hl, hr, ha]
    rw [move_x, move_y, move_speed, ht, hs, hc]
    constructor <;> ring
  · intro x y width height color hs hc hx0 hx1 hy0 hy1
    have ht : turned (Car.accelerate (Car.constructor x y width height color)) = 0 := by
      simp [turned, Car.accelerate, Car.constructor]
    have hd : capped (Car.accelerate (Car.constructor x y width height color)).maxSpeed
        (decayed (Car.accelerate (Car.constructor x y width height color))) = 9 / 10 := by
      norm_num [capped, decayed, Car.accelerate, Car.constructor]
    refine ⟨by simp [Car.accelerate, Car.constructor], ?_, ?_, ?_⟩
    · rw [update_speed, hd]
    · rw [update_y, ht, hd, hc]
      have e1 : (Car.accelerate (Car.constructor x y width height color)).y = y := rfl
      have e2 : (Car.accelerate (Car.constructor x y width height color)).height = height := rfl
      rw [e1, e2, bordered_inside _ _ _ (by linarith) (by linarith)]
      ring
    · rw [update_x, ht, hd, hs]
      have e1 : (Car.accelerate (Car.constructor x y width height color)).x = x := rfl
      have e2 : (Car.accelerate (Car.constructor x y width height color)).width = width := rfl
      rw [e1, e2, bordered_inside _ _ _ (by linarith) (by linarith)]
      ring

/-- C3, at a concrete input over the reals with Real.sin and Real.cos: the car of car.js
line 114 after one accelerate, on an 800 by 600 canvas. -/
theorem C3_position_integration_witness :
    (Real.sin 0 = 0 ∧ Real.cos 0 = 1 ∧ (Car.accelerate (car : Car ℝ)).angle = 0 ∧
      (Car.accelerate (car : Car ℝ)).controls.left = false ∧
      (Car.accelerate (car : Car ℝ)).controls.right = false) ∧
    ((Car.move Real.sin Real.cos (Car.accelerate (car : Car ℝ))).x =
        (Car.accelerate (car : Car ℝ)).x ∧
      (Car.move Real.sin Real.cos (Car.accelerate (car : Car ℝ))).y =
        (Car.accelerate (car : Car ℝ)).y -
          (Car.move Real.sin Real.cos (Car.accelerate (car : Car ℝ))).speed) ∧
    ((Car.accelerate (Car.constructor (350 : ℝ) 500 30 50 "blue")).speed = 1 ∧
      (Car.update Real.sin Real.cos ⟨800, 600⟩
        (Car.accelerate (Car.constructor (350 : ℝ) 500 30 50 "blue"))).speed = 9 / 10 ∧
      (Car.update Real.sin Real.cos ⟨800, 600⟩
        (Car.accelerate (Car.constructor (350 : ℝ) 500 30 50 "blue"))).y = 500 - 9 / 10 ∧
      (Car.update Real.sin Real.cos ⟨800, 600⟩
        (Car.accelerate (Car.constructor (350 : ℝ) 500 30 50 "blue"))).x = 350) :=
  ⟨⟨Real.sin_zero, Real.cos_zero, rfl, rfl, rfl⟩,
    (C3_position_integration Real.sin Real.cos ⟨800, 600⟩ (Car.accelerate (car : Car ℝ))).2.1
      Real.sin_zero Real.cos_zero rfl rfl rfl,
    (C3_position_integration Real.sin Real.cos ⟨800, 600⟩ (Car.accelerate (car : Car ℝ))).2.2
      350 500 30 50 "blue" Real.sin_zero Real.cos_zero (by norm_num) (by norm_num)
      (by norm_num) (by norm_num)⟩

/-- C4, at the failing input: the car of car.js line 114 (friction 0.1, maxSpeed 10) moving
forward at speed 0.01.  One update leaves speed -0.09: the sign has flipped and the magnitude
has grown, so 0 <= speed' < speed fails; a second update returns speed 0.01, so the car
never comes to rest. -/
theorem C4_friction_overshoot :
    (0 : ℝ) < (withSpeed (1 / 100) car : Car ℝ).friction ∧
    (0 : ℝ) ≤ (withSpeed (1 / 100) car : Car ℝ).maxSpeed ∧
    (0 : ℝ) < (withSpeed (1 / 100) car : Car ℝ).speed ∧
    (Car.update Real.sin Real.cos ⟨800, 600⟩ (withSpeed (1 / 100) car : Car ℝ)).speed =
      -(9 / 100) ∧
    ¬ (0 ≤ (Car.update Real.sin Real.cos ⟨800, 600⟩
        (withSpeed (1 / 100) car : Car ℝ)).speed) ∧
    (animate Real.sin Real.cos ⟨800, 600⟩ 2 (withSpeed (1 / 100) car : Car ℝ)).speed =
      1 / 100 := by
  have h1 : (Car.update Real.sin Real.cos ⟨800, 600⟩
      (withSpeed (1 / 100) car : Car ℝ)).speed = -(9 / 100) := by
    rw [update_speed]
    norm_num [capped, decayed, withSpeed, car, Car.constructor]
  have hf : (Car.update Real.sin Real.cos ⟨800, 600⟩
      (withSpeed (1 / 100) car : Car ℝ)).friction = 1 / 10 := by
    rw [(update_frame _ _ _ _).2.2.2.2.2.1]
    rfl
  have hm : (Car.update Real.sin Real.cos ⟨800, 600⟩
      (withSpeed (1 / 100) car : Car ℝ)).maxSpeed = 10 := by
    rw [(update_frame _ _ _ _).2.2.2.2.1]
    rfl
  refine ⟨by norm_num [withSpeed, car, Car.constructor],
    by norm_num [withSpeed, car, Car.constructor],
    by norm_num [withSpeed, car, Car.constructor], h1, ?_, ?_⟩
  · rw [h1]
    norm_num
  · show (Car.update Real.sin Real.cos ⟨800, 600⟩
      (Car.update Real.sin Real.cos ⟨800, 600⟩ (withSpeed (1 / 100) car : Car ℝ))).speed = _
    rw [update_speed, hm]
    simp only [decayed, h1, hf]
    norm_num [capped]

/-- C5, at the failing input, in binary64: the car of car.js line 114 (friction the binary64
number nearest to 0.1, maxSpeed 10) brought to speed 5 by five ArrowUp key-downs, then frames
with no key event.  After 50 frames the speed is 37 * 2^-55 (about 1.03e-15), not 0; after
51 frames it is about -0.0999999999999990, negative; after 52 frames it is 37 * 2^-55
again.  The speed never comes to rest. -/
theorem C5_friction_trajectory_binary64 :
    (carR5.friction = 3602879701896397 / 36028797018963968 ∧ carR5.maxSpeed = 10 ∧
      carR5.speed = 5) ∧
    ∀ (sin cos : ℚ → ℚ) (canvas : Canvas ℚ),
      (animateR round64 sin cos canvas 50 carR5).speed = 37 / 36028797018963968 ∧
      (animateR round64 sin cos canvas 51 carR5).speed =
        -(450359962737045 / 4503599627370496) ∧
      (animateR round64 sin cos canvas 51 carR5).speed < 0 ∧
      (animateR round64 sin cos canvas 52 carR5).speed = 37 / 36028797018963968 := by
  have e₀ : carR5.speed = 5 := by decide!
  have h₁ : (fun s => capped carR5.maxSpeed (decayR round64 carR5.friction s))^[10]
      5 =
        1125899906842625 / 281474976710656 := by
    decide!
  have h₂ : (fun s => capped carR5.maxSpeed (decayR round64 carR5.friction s))^[10]
      (1125899906842625 / 281474976710656) =
        3377699720527875 / 1125899906842624 := by
    decide!
  have h₃ : (fun s => capped carR5.maxSpeed (decayR round64 carR5.friction s))^[10]
      (3377699720527875 / 1125899906842624) =
        1125899906842625 / 562949953421312 := by
    decide!
  have h₄ : (fun s => capped carR5.maxSpeed (decayR round64 carR5.friction s))^[10]
      (1125899906842625 / 562949953421312) =
        1125899906842625 / 1125899906842624 := by
    decide!
  have h₅ : (fun s => capped carR5.maxSpeed (decayR round64 carR5.friction s))^[10]
      (1125899906842625 / 1125899906842624) =
        37 / 36028797018963968 := by
    decide!
  have h₆ : (fun s => capped carR5.maxSpeed (decayR round64 carR5.friction s))^[1]
      (37 / 36028797018963968) =
        -(450359962737045 / 4503599627370496) := by
    decide!
  have h₇ : (fun s => capped carR5.maxSpeed (decayR round64 carR5.friction s))^[1]
      (-(450359962737045 / 4503599627370496)) =
        37 / 36028797018963968 := by
    decide!
  have a₅₀ := iterate_chunk _ 40 10 _ _ _
    (iterate_chunk _ 30 10 _ _ _ (iterate_chunk _ 20 10 _ _ _
      (iterate_chunk _ 10 10 _ _ _ h₁ h₂) h₃) h₄) h₅
  have a₅₁ := iterate_chunk _ 50 1 _ _ _ a₅₀ h₆
  have a₅₂ := iterate_chunk _ 51 1 _ _ _ a₅₁ h₇
  refine ⟨⟨by decide!, by decide!, e₀⟩, fun sin cos canvas => ?_⟩
  simp only [animateR_speed, e₀]
  refine ⟨a₅₀, a₅₁, ?_, a₅₂⟩
  rw [a₅₁]
  decide!

/-- C6. Rest state is a fixed point of update: for every state of the program (a state
reached from the constructor by method calls; more generally every state with maxSpeed at
least 0) with speed 0, neither turn key held and position within
[0, canvas.width - width] by [0, canvas.height - height], one update returns the very same
state, so x, y, heading and speed are unchanged.  The same holds with rounded arithmetic, for
every monotone rounding with fl 0 = 0 that leaves x, y and the canvas size as they are (as
binary64 rounding leaves binary64 numbers). -/
theorem C6_rest_fixed_point (sin cos : K → K) (canvas : Canvas K) (c : Car K)
    (hs : c.speed = 0)
    (hl : c.controls.left = false) (hr : c.controls.right = false)
    (hx0 : 0 ≤ c.x) (hx1 : c.x ≤ canvas.width - c.width)
    (hy0 : 0 ≤ c.y) (hy1 : c.y ≤ canvas.height - c.height) :
    (Reachable sin cos canvas c → Car.update sin cos canvas c = c) ∧
    (0 ≤ c.maxSpeed → Car.update sin cos canvas c = c) ∧
    (∀ fl : K → K, fl 0 = 0 → Monotone fl → fl c.x = c.x → fl c.y = c.y →
      fl canvas.width = canvas.width → fl canvas.height = canvas.height → 0 ≤ c.maxSpeed →
      Car.updateR fl sin cos canvas c = c) := by
  have main : ∀ fl : K → K, fl 0 = 0 → Monotone fl → fl c.x = c.x → fl c.y = c.y →
      fl canvas.width = canvas.width → fl canvas.height = canvas.height → 0 ≤ c.maxSpeed →
      Car.updateR fl sin cos canvas c = c := by
    intro fl h0 hmono hx hy hcw hch hm
    have hsp : capped c.maxSpeed (decayR fl c.friction c.speed) = 0 := by
      simp only [decayR]
      rw [hs, if_neg (lt_irrefl 0), if_neg (lt_irrefl 0), capped_inside _ _ (by linarith) hm]
    have hf := updateR_frame fl sin cos canvas c
    apply Car.ext
    · rw [updateR_x, moveR_x, hsp, mul_zero, h0, add_zero, hx,
        borderR_inside fl hmono _ _ _ hcw hx0 (by linarith)]
    · rw [updateR_y, moveR_y, hsp, mul_zero, h0, sub_zero, hy,
        borderR_inside fl hmono _ _ _ hch hy0 (by linarith)]
    · exact hf.1
    · exact hf.2.1
    · exact hf.2.2.1
    · rw [updateR_speed, hsp, hs]
    · exact hf.2.2.2.1
    · exact hf.2.2.2.2.1
    · exact hf.2.2.2.2.2.1
    · rw [updateR_angle]
      simp [turnR, hl, hr]
    · exact hf.2.2.2.2.2.2.1
    · exact hf.2.2.2.2.2.2.2
  have exact : 0 ≤ c.maxSpeed → Car.update sin cos canvas c = c := fun hm =>
    (updateR_id sin cos canvas c).symm.trans
      (main id rfl monotone_id rfl rfl rfl rfl hm)
  refine ⟨fun h => exact ?_, exact, main⟩
  rw [reachable_maxSpeed sin cos canvas c h]
  norm_num

/-- C6, at concrete inputs: over the reals, the freshly constructed car of car.js line 114 on
an 800 by 600 canvas; in binary64, the same car as the program stores it. -/
theorem C6_rest_fixed_point_witness :
    ((car : Car ℝ).speed = 0 ∧
      (car : Car ℝ).controls.left = false ∧ (car : Car ℝ).controls.right = false ∧
      0 ≤ (car : Car ℝ).x ∧ (car : Car ℝ).x ≤ 800 - (car : Car ℝ).width ∧
      0 ≤ (car : Car ℝ).y ∧ (car : Car ℝ).y ≤ 600 - (car : Car ℝ).height) ∧
    (Reachable Real.sin Real.cos ⟨800, 600⟩ (car : Car ℝ) ∧
      Car.update Real.sin Real.cos ⟨800, 600⟩ (car : Car ℝ) = car) ∧
    ((round64 0 = 0 ∧ Monotone round64 ∧ round64 carR.x = carR.x ∧ round64 carR.y = carR.y ∧
        round64 800 = 800 ∧ round64 600 = 600 ∧ 0 ≤ carR.maxSpeed) ∧
      ∀ sin cos : ℚ → ℚ, Car.updateR round64 sin cos ⟨800, 600⟩ carR = carR) :=
  ⟨by norm_num [car, Car.constructor],
    ⟨Reachable.start 350 500 30 50 "blue",
      (C6_rest_fixed_point Real.sin Real.cos ⟨800, 600⟩ car rfl rfl rfl
        (by norm_num [car, Car.constructor]) (by norm_num [car, Car.constructor])
        (by norm_num [car, Car.constructor]) (by norm_num [car, Car.constructor])).1
        (Reachable.start 350 500 30 50 "blue")⟩,
    ⟨round64_zero, round64_monotone, by decide!, by decide!, by decide!, by decide!,
      by decide!⟩,
    fun sin cos =>
      (C6_rest_fixed_point sin cos ⟨800, 600⟩ carR rfl rfl rfl (by decide!) (by decide!)
        (by decide!) (by decide!)).2.2 round64 round64_zero round64_monotone (by decide!)
        (by decide!) (by decide!) (by decide!) (by decide!)⟩

/-- C7. The method accelerate adds exactly the acceleration rate to speed, applies no cap and
leaves every other field as it was; so from speed = maxSpeed with a positive acceleration
rate the speed after accelerate is above maxSpeed.  The next update brings it back to at
most maxSpeed (for maxSpeed at least 0, the bound of C1). -/
theorem C7_accelerate (sin cos : K → K) (canvas : Canvas K) (c : Car K) :
    (Car.accelerate c).speed = c.speed + c.acceleration ∧
    ((Car.accelerate c).x = c.x ∧ (Car.accelerate c).y = c.y ∧
      (Car.accelerate c).width = c.width ∧ (Car.accelerate c).height = c.height ∧
      (Car.accelerate c).color = c.color ∧
      (Car.accelerate c).acceleration = c.acceleration ∧
      (Car.accelerate c).maxSpeed = c.maxSpeed ∧ (Car.accelerate c).friction = c.friction ∧
      (Car.accelerate c).angle = c.angle ∧ (Car.accelerate c).turnSpeed = c.turnSpeed ∧
      (Car.accelerate c).controls = c.controls) ∧
    (0 < c.acceleration → c.speed = c.maxSpeed →
      (Car.accelerate c).maxSpeed < (Car.accelerate c).speed) ∧
    (0 ≤ c.maxSpeed →
      (Car.update sin cos canvas (Car.accelerate c)).speed ≤ c.maxSpeed) := by
  refine ⟨rfl, ⟨rfl, rfl, rfl, rfl, rfl, rfl, rfl, rfl, rfl, rfl, rfl⟩, ?_, ?_⟩
  · intro ha hs
    show c.maxSpeed < c.speed + c.acceleration
    linarith
  · intro hm
    rw [update_speed]
    exact (capped_bounds _ _ hm).2

/-- C7, at a concrete input over the reals: the car of car.js line 114 (acceleration 1)
running at maxSpeed 10; accelerate leaves it at speed 11. -/
theorem C7_accelerate_witness :
    ((0 : ℝ) < (withSpeed 10 car : Car ℝ).acceleration ∧
      (withSpeed 10 car : Car ℝ).speed = (withSpeed 10 car : Car ℝ).maxSpeed ∧
      (0 : ℝ) ≤ (withSpeed 10 car : Car ℝ).maxSpeed) ∧
    (Car.accelerate (withSpeed 10 car : Car ℝ)).maxSpeed <
      (Car.accelerate (withSpeed 10 car : Car ℝ)).speed ∧
    (Car.update Real.sin Real.cos ⟨800, 600⟩
      (Car.accelerate (withSpeed 10 car : Car ℝ))).speed ≤
        (withSpeed 10 car : Car ℝ).maxSpeed :=
  ⟨by norm_num [withSpeed, car, Car.constructor],
    (C7_accelerate Real.sin Real.cos ⟨800, 600⟩ (withSpeed 10 car : Car ℝ)).2.2.1
      (by norm_num [withSpeed, car, Car.constructor]) rfl,
    (C7_accelerate Real.sin Real.cos ⟨800, 600⟩ (withSpeed 10 car : Car ℝ)).2.2.2
      (by norm_num [withSpeed, car, Car.constructor])⟩

/-- C8. The method brake subtracts exactly the acceleration rate from speed, with no floor
at zero, and leaves every other field as it was; so whenever speed is below the acceleration
rate (at rest, or moving forward slowly) the speed after brake is negative. -/
theorem C8_brake (c : Car K) :
    (Car.brake c).speed = c.speed - c.acceleration ∧
    ((Car.brake c).x = c.x ∧ (Car.brake c).y = c.y ∧
      (Car.brake c).width = c.width ∧ (Car.brake c).height = c.height ∧
      (Car.brake c).color = c.color ∧ (Car.brake c).acceleration = c.acceleration ∧
      (Car.brake c).maxSpeed = c.maxSpeed ∧ (Car.brake c).friction = c.friction ∧
      (Car.brake c).angle = c.angle ∧ (Car.brake c).turnSpeed = c.turnSpeed ∧
      (Car.brake c).controls = c.controls) ∧
    (c.speed < c.acceleration → (Car.brake c).speed < 0) := by
  refine ⟨rfl, ⟨rfl, rfl, rfl, rfl, rfl, rfl, rfl, rfl, rfl, rfl, rfl⟩, ?_⟩
  intro h
  show c.speed - c.acceleration < 0
  linarith

/-- C8, at a concrete input over the reals: the car of car.js line 114 at rest
(acceleration 1); brake leaves it at speed -1. -/
theorem C8_brake_witness :
    (car : Car ℝ).speed < (car : Car ℝ).acceleration ∧
    (Car.brake (car : Car ℝ)).speed < 0 :=
  ⟨by norm_num [car, Car.constructor],
    (C8_brake (car : Car ℝ)).2.2 (by norm_num [car, Car.constructor])⟩

/-- C9. The method setControl on a recognized key sets exactly that key flag to the pressed
value and is edge-triggered on speed: ArrowUp pressed sets the up flag and adds the
acceleration rate to speed (one accelerate); ArrowDown pressed sets the down flag and
subtracts it (one brake); a release of either key, and ArrowLeft or ArrowRight with any
pressed value, change that one flag and nothing else. -/
theorem C9_setControl_recognized (c : Car K) :
    (Car.setControl "ArrowUp" true c =
        { c with controls := { c.controls with up := true },
                 speed := c.speed + c.acceleration } ∧
      Car.setControl "ArrowUp" true c =
        Car.accelerate { c with controls := { c.controls with up := true } }) ∧
    (Car.setControl "ArrowDown" true c =
        { c with controls := { c.controls with down := true },
                 speed := c.speed - c.acceleration } ∧
      Car.setControl "ArrowDown" true c =
        Car.brake { c with controls := { c.controls with down := true } }) ∧
    Car.setControl "ArrowUp" false c =
      { c with controls := { c.controls with up := false } } ∧
    Car.setControl "ArrowDown" false c =
      { c with controls := { c.controls with down := false } } ∧
    (∀ isPressed : Bool, Car.setControl "ArrowLeft" isPressed c =
      { c with controls := { c.controls with left := isPressed } }) ∧
    (∀ isPressed : Bool, Car.setControl "ArrowRight" isPressed c =
      { c with controls := { c.controls with right := isPressed } }) := by
  refine ⟨⟨?_, ?_⟩, ⟨?_, ?_⟩, ?_, ?_, fun p => ?_, fun p => ?_⟩ <;>
    simp [Car.setControl, Car.accelerate, Car.brake]

/-- C10. Unrecognized keys are ignored: for every key identifier other than ArrowUp,
ArrowDown, ArrowLeft and ArrowRight and either pressed value, setControl returns the state
it was given (setControl is a total function, there is no failure case). -/
theorem C10_setControl_unrecognized (key : String) (isPressed : Bool) (c : Car K)
    (hu : key ≠ "ArrowUp") (hd : key ≠ "ArrowDown")
    (hl : key ≠ "ArrowLeft") (hr : key ≠ "ArrowRight") :
    Car.setControl key isPressed c = c := by
  simp only [Car.setControl]
  rw [if_neg hu, if_neg hd, if_neg hl, if_neg hr]

/-- C10, at a concrete input: the space bar pressed on the car of car.js line 114. -/
theorem C10_setControl_unrecognized_witness :
    (" " ≠ "ArrowUp" ∧ " " ≠ "ArrowDown" ∧ " " ≠ "ArrowLeft" ∧ " " ≠ "ArrowRight") ∧
    Car.setControl " " true (car : Car ℚ) = car :=
  ⟨by decide,
    C10_setControl_unrecognized " " true car (by decide) (by decide) (by decide) (by decide)⟩

/-- C11, as stated, fails in binary64.  The car of car.js line 114 with ArrowLeft held for
two frames has heading -0.1 (two subtractions of the binary64 number nearest to 0.05); with
ArrowRight pressed as well, the next frame computes (-0.1 - 0.05) + 0.05, each operation
rounded, and leaves the heading -0.10000000000000002, one unit in the last place away. -/
theorem C11_turn_flags_counterexample :
    carR.turnSpeed = 3602879701896397 / 72057594037927936 ∧
    ∀ (sin cos : ℚ → ℚ) (canvas : Canvas ℚ),
      (Car.setControlR round64 "ArrowRight" true (animateR round64 sin cos canvas 2
        (Car.setControlR round64 "ArrowLeft" true carR))).controls.left = true ∧
      (Car.setControlR round64 "ArrowRight" true (animateR round64 sin cos canvas 2
        (Car.setControlR round64 "ArrowLeft" true carR))).controls.right = true ∧
      (Car.setControlR round64 "ArrowRight" true (animateR round64 sin cos canvas 2
        (Car.setControlR round64 "ArrowLeft" true carR))).angle =
          -(3602879701896397 / 36028797018963968) ∧
      (Car.updateR round64 sin cos canvas
        (Car.setControlR round64 "ArrowRight" true (animateR round64 sin cos canvas 2
          (Car.setControlR round64 "ArrowLeft" true carR)))).angle =
            -(7205759403792795 / 72057594037927936) ∧
      (Car.updateR round64 sin cos canvas
        (Car.setControlR round64 "ArrowRight" true (animateR round64 sin cos canvas 2
          (Car.setControlR round64 "ArrowLeft" true carR)))).angle ≠
        (Car.setControlR round64 "ArrowRight" true (animateR round64 sin cos canvas 2
          (Car.setControlR round64 "ArrowLeft" true carR))).angle := by
  refine ⟨by decide!, fun sin cos canvas => ?_⟩
  have r := setControlR_right round64 (animateR round64 sin cos canvas 2
    (Car.setControlR round64 "ArrowLeft" true carR))
  have t := animateR_turn round64 sin cos canvas 2
    (Car.setControlR round64 "ArrowLeft" true carR)
  have hl : (Car.setControlR round64 "ArrowRight" true (animateR round64 sin cos canvas 2
      (Car.setControlR round64 "ArrowLeft" true carR))).controls.left = true := by
    rw [r.2.2.1, t.2.1]
    decide!
  have ha : (Car.setControlR round64 "ArrowRight" true (animateR round64 sin cos canvas 2
      (Car.setControlR round64 "ArrowLeft" true carR))).angle =
        -(3602879701896397 / 36028797018963968) := by
    rw [r.1, t.1]
    decide!
  have ht : (Car.setControlR round64 "ArrowRight" true (animateR round64 sin cos canvas 2
      (Car.setControlR round64 "ArrowLeft" true carR))).turnSpeed =
        3602879701896397 / 72057594037927936 := by
    rw [r.2.1, t.2.2]
    decide!
  have hu : (Car.updateR round64 sin cos canvas
      (Car.setControlR round64 "ArrowRight" true (animateR round64 sin cos canvas 2
        (Car.setControlR round64 "ArrowLeft" true carR)))).angle =
          -(7205759403792795 / 72057594037927936) := by
    rw [updateR_angle, hl, r.2.2.2, ha, ht]
    decide!
  refine ⟨hl, r.2.2.2, ha, hu, ?_⟩
  rw [hu, ha]
  decide!

/-- C11, amended.  With both left and right held one update runs both turning statements in
order: the new heading is (heading - turnSpeed) + turnSpeed with each of the two operations
rounded.  That is the old heading in exact arithmetic, and in binary64 whenever the
subtraction heading - turnSpeed is exact; otherwise it can differ from the old heading by a
rounding error.  With only left held the new heading is the rounded heading - turnSpeed,
with only right held the rounded heading + turnSpeed. -/
theorem C11_turn_flags (fl sin cos : K → K) (canvas : Canvas K) (c : Car K) :
    (c.controls.left = true → c.controls.right = true →
      (Car.updateR fl sin cos canvas c).angle = fl (fl (c.angle - c.turnSpeed) + c.turnSpeed)) ∧
    (c.controls.left = true → c.controls.right = true →
      fl (c.angle - c.turnSpeed) = c.angle - c.turnSpeed → fl c.angle = c.angle →
      (Car.updateR fl sin cos canvas c).angle = c.angle) ∧
    (c.controls.left = true → c.controls.right = true →
      (Car.update sin cos canvas c).angle = c.angle) ∧
    (c.controls.left = true → c.controls.right = false →
      (Car.updateR fl sin cos canvas c).angle = fl (c.angle - c.turnSpeed)) ∧
    (c.controls.left = false → c.controls.right = true →
      (Car.updateR fl sin cos canvas c).angle = fl (c.angle + c.turnSpeed)) := by
  refine ⟨fun hl hr => ?_, fun hl hr h₁ h₂ => ?_, fun hl hr => ?_, fun hl hr => ?_,
    fun hl hr => ?_⟩
  · rw [updateR_angle]
    simp [turnR, hl, hr]
  · rw [updateR_angle]
    simp only [turnR, hl, hr, if_true]
    rw [h₁, sub_add_cancel, h₂]
  · rw [update_angle]
    simp [turned, hl, hr]
  · rw [updateR_angle]
    simp [turnR, hl, hr]
  · rw [updateR_angle]
    simp [turnR, hl, hr]

/-- C11 amended, at concrete inputs in binary64: the car of car.js line 114 (heading 0,
turnSpeed the binary64 number nearest to 0.05) with both turn keys held keeps heading 0 (the
subtraction 0 - turnSpeed is exact); with only ArrowLeft held it turns to -turnSpeed, with
only ArrowRight held to turnSpeed. -/
theorem C11_turn_flags_witness :
    (round64 ((withControls ⟨false, false, true, true⟩ carR).angle -
        (withControls ⟨false, false, true, true⟩ carR).turnSpeed) =
      (withControls ⟨false, false, true, true⟩ carR).angle -
        (withControls ⟨false, false, true, true⟩ carR).turnSpeed ∧
      round64 (withControls ⟨false, false, true, true⟩ carR).angle =
        (withControls ⟨false, false, true, true⟩ carR).angle) ∧
    ∀ (sin cos : ℚ → ℚ) (canvas : Canvas ℚ),
      (Car.updateR round64 sin cos canvas
        (withControls ⟨false, false, true, true⟩ carR)).angle =
          (withControls ⟨false, false, true, true⟩ carR).angle ∧
      (Car.updateR round64 sin cos canvas
        (withControls ⟨false, false, true, false⟩ carR)).angle =
          round64 ((withControls ⟨false, false, true, false⟩ carR).angle -
            (withControls ⟨false, false, true, false⟩ carR).turnSpeed) ∧
      (Car.updateR round64 sin cos canvas
        (withControls ⟨false, false, false, true⟩ carR)).angle =
          round64 ((withControls ⟨false, false, false, true⟩ carR).angle +
            (withControls ⟨false, false, false, true⟩ carR).turnSpeed) :=
  ⟨⟨by decide!, by decide!⟩, fun sin cos canvas =>
    ⟨(C11_turn_flags round64 sin cos canvas
        (withControls ⟨false, false, true, true⟩ carR)).2.1 rfl rfl (by decide!) (by decide!),
      (C11_turn_flags round64 sin cos canvas
        (withControls ⟨false, false, true, false⟩ carR)).2.2.2.1 rfl rfl,
      (C11_turn_flags round64 sin cos canvas
        (withControls ⟨false, false, false, true⟩ carR)).2.2.2.2 rfl rfl⟩⟩

/-- C12. Heading persists unless a turn flag is set: with neither left nor right held,
update leaves the heading as it was, whatever the speed and position; and accelerate, brake
and setControl (any key, any pressed value) always leave the heading as it was. -/
theorem C12_heading_persists (sin cos : K → K) (canvas : Canvas K) (c : Car K) :
    (c.controls.left = false → c.controls.right = false →
      (Car.update sin cos canvas c).angle = c.angle) ∧
    (Car.accelerate c).angle = c.angle ∧
    (Car.brake c).angle = c.angle ∧
    (∀ (key : String) (isPressed : Bool), (Car.setControl key isPressed c).angle = c.angle) := by
  refine ⟨fun hl hr => ?_, rfl, rfl, fun key isPressed => ?_⟩
  · rw [update_angle]
    simp [turned, hl, hr]
  · simp only [Car.setControl]
    split_ifs <;> rfl

/-- C12, at a concrete input over the reals: the car of car.js line 114 at speed 25 with no
key held, on an 800 by 600 canvas. -/
theorem C12_heading_persists_witness :
    ((withSpeed 25 car : Car ℝ).controls.left = false ∧
      (withSpeed 25 car : Car ℝ).controls.right = false) ∧
    (Car.update Real.sin Real.cos ⟨800, 600⟩ (withSpeed 25 car : Car ℝ)).angle =
      (withSpeed 25 car : Car ℝ).angle :=
  ⟨⟨rfl, rfl⟩,
    (C12_heading_persists Real.sin Real.cos ⟨800, 600⟩ (withSpeed 25 car : Car ℝ)).1 rfl rfl⟩

/-- C13, at the failing input, in binary64: a car 30 wide constructed at rest at
x = 1000 + 2^-43 (the binary64 number written 1000.0000000000001) on a canvas 1030 wide.  The
x that move leaves is 1000 + 2^-43, above canvas.width - width = 1000, but the sum x + width
rounds to 1030, the right-edge test does not fire, and update leaves x = 1000 + 2^-43
instead of 1000. -/
theorem C13_right_edge_binary64 :
    (Car.constructorR round64 (1000 + 1 / 8796093022208) 500 30 50 "blue").width = 30 ∧
    round64 (1000 + 1 / 8796093022208 + 30) = 1030 ∧
    ∀ sin cos : ℚ → ℚ,
      (Car.moveR round64 sin cos
        (Car.constructorR round64 (1000 + 1 / 8796093022208) 500 30 50 "blue")).x =
          1000 + 1 / 8796093022208 ∧
      1030 - (Car.constructorR round64 (1000 + 1 / 8796093022208) 500 30 50 "blue").width <
        (Car.moveR round64 sin cos
          (Car.constructorR round64 (1000 + 1 / 8796093022208) 500 30 50 "blue")).x ∧
      (Car.updateR round64 sin cos ⟨1030, 600⟩
        (Car.constructorR round64 (1000 + 1 / 8796093022208) 500 30 50 "blue")).x =
          1000 + 1 / 8796093022208 ∧
      (Car.updateR round64 sin cos ⟨1030, 600⟩
        (Car.constructorR round64 (1000 + 1 / 8796093022208) 500 30 50 "blue")).x ≠
        1030 - (Car.constructorR round64 (1000 + 1 / 8796093022208) 500 30 50 "blue").width := by
  refine ⟨rfl, by decide!, fun sin cos => ?_⟩
  have hs : capped (Car.constructorR round64 (1000 + 1 / 8796093022208) 500 30 50 "blue").maxSpeed
      (decayR round64
        (Car.constructorR round64 (1000 + 1 / 8796093022208) 500 30 50 "blue").friction
        (Car.constructorR round64 (1000 + 1 / 8796093022208) 500 30 50 "blue").speed) = 0 := by
    decide!
  have hm : (Car.moveR round64 sin cos
      (Car.constructorR round64 (1000 + 1 / 8796093022208) 500 30 50 "blue")).x =
        1000 + 1 / 8796093022208 := by
    rw [moveR_x, hs, mul_zero, round64_zero, add_zero]
    decide!
  have hu : (Car.updateR round64 sin cos ⟨1030, 600⟩
      (Car.constructorR round64 (1000 + 1 / 8796093022208) 500 30 50 "blue")).x =
        1000 + 1 / 8796093022208 := by
    rw [updateR_x, hm]
    decide!
  refine ⟨hm, ?_, hu, ?_⟩
  · rw [hm]
    decide!
  · rw [hu]
    decide!

/-- C14. Holding forward or backward has no effect on update: for every two states that
agree on everything except the up and down flags, one update gives states that again agree
on everything except those two flags (same x, y, speed, heading), and update leaves the up
and down flags of each state as they were; accelerate and brake are never called per
frame. -/
theorem C14_held_keys_ignored (sin cos : K → K) (canvas : Canvas K) (c₁ c₂ : Car K)
    (h : agreeExceptUpDown c₁ c₂) :
    agreeExceptUpDown (Car.update sin cos canvas c₁) (Car.update sin cos canvas c₂) ∧
    ((Car.update sin cos canvas c₁).x = (Car.update sin cos canvas c₂).x ∧
      (Car.update sin cos canvas c₁).y = (Car.update sin cos canvas c₂).y ∧
      (Car.update sin cos canvas c₁).speed = (Car.update sin cos canvas c₂).speed ∧
      (Car.update sin cos canvas c₁).angle = (Car.update sin cos canvas c₂).angle) ∧
    ((Car.update sin cos canvas c₁).controls.up = c₁.controls.up ∧
      (Car.update sin cos canvas c₁).controls.down = c₁.controls.down ∧
      (Car.update sin cos canvas c₂).controls.up = c₂.controls.up ∧
      (Car.update sin cos canvas c₂).controls.down = c₂.controls.down) := by
  obtain ⟨hx, hy, hw, hh, hcol, hs, ha, hm, hf, hang, hts, hl, hr⟩ := h
  have f₁ := update_frame sin cos canvas c₁
  have f₂ := update_frame sin cos canvas c₂
  have ht : turned c₁ = turned c₂ := by simp only [turned, hang, hts, hl, hr]
  have hd : decayed c₁ = decayed c₂ := by simp only [decayed, hs, hf]
  have ex : (Car.update sin cos canvas c₁).x = (Car.update sin cos canvas c₂).x := by
    rw [update_x, update_x, ht, hd, hm, hx, hw]
  have ey : (Car.update sin cos canvas c₁).y = (Car.update sin cos canvas c₂).y := by
    rw [update_y, update_y, ht, hd, hm, hy, hh]
  have es : (Car.update sin cos canvas c₁).speed = (Car.update sin cos canvas c₂).speed := by
    rw [update_speed, update_speed, hd, hm]
  have ea : (Car.update sin cos canvas c₁).angle = (Car.update sin cos canvas c₂).angle := by
    rw [update_angle, update_angle, ht]
  refine ⟨⟨ex, ey, ?_, ?_, ?_, es, ?_, ?_, ?_, ea, ?_, ?_, ?_⟩, ⟨ex, ey, es, ea⟩, ?_, ?_, ?_, ?_⟩
  · rw [f₁.1, f₂.1, hw]
  · rw [f₁.2.1, f₂.2.1, hh]
  · rw [f₁.2.2.1, f₂.2.2.1, hcol]
  · rw [f₁.2.2.2.1, f₂.2.2.2.1, ha]
  · rw [f₁.2.2.2.2.1, f₂.2.2.2.2.1, hm]
  · rw [f₁.2.2.2.2.2.1, f₂.2.2.2.2.2.1, hf]
  · rw [f₁.2.2.2.2.2.2.1, f₂.2.2.2.2.2.2.1, hts]
  · rw [f₁.2.2.2.2.2.2.2, f₂.2.2.2.2.2.2.2, hl]
  · rw [f₁.2.2.2.2.2.2.2, f₂.2.2.2.2.2.2.2, hr]
  · rw [f₁.2.2.2.2.2.2.2]
  · rw [f₁.2.2.2.2.2.2.2]
  · rw [f₂.2.2.2.2.2.2.2]
  · rw [f₂.2.2.2.2.2.2.2]

/-- C14, at a concrete input over the reals: the car of car.js line 114 at speed 3 with no
key held, and the same car with up and down both held; after one update on an 800 by 600
canvas both have the same speed and position. -/
theorem C14_held_keys_ignored_witness :
    agreeExceptUpDown (withSpeed 3 car : Car ℝ)
      (withControls ⟨true, true, false, false⟩ (withSpeed 3 car)) ∧
    (Car.update Real.sin Real.cos ⟨800, 600⟩ (withSpeed 3 car : Car ℝ)).speed =
      (Car.update Real.sin Real.cos ⟨800, 600⟩
        (withControls ⟨true, true, false, false⟩ (withSpeed 3 car))).speed ∧
    (Car.update Real.sin Real.cos ⟨800, 600⟩ (withSpeed 3 car : Car ℝ)).y =
      (Car.update Real.sin Real.cos ⟨800, 600⟩
        (withControls ⟨true, true, false, false⟩ (withSpeed 3 car))).y :=
  ⟨⟨rfl, rfl, rfl, rfl, rfl, rfl, rfl, rfl, rfl, rfl, rfl, rfl, rfl⟩,
    (C14_held_keys_ignored Real.sin Real.cos ⟨800, 600⟩ (withSpeed 3 car : Car ℝ)
      (withControls ⟨true, true, false, false⟩ (withSpeed 3 car))
      ⟨rfl, rfl, rfl, rfl, rfl, rfl, rfl, rfl, rfl, rfl, rfl, rfl, rfl⟩).2.1.2.2.1,
    (C14_held_keys_ignored Real.sin Real.cos ⟨800, 600⟩ (withSpeed 3 car : Car ℝ)
      (withControls ⟨true, true, false, false⟩ (withSpeed 3 car))
      ⟨rfl, rfl, rfl, rfl, rfl, rfl, rfl, rfl, rfl, rfl, rfl, rfl, rfl⟩).2.1.2.1⟩

/-- C15. Extent and constants are fixed: each of update, accelerate, brake and setControl
(any key, any pressed value) leaves width, height, color, acceleration, maxSpeed, friction
and turnSpeed as they were; update also leaves all four key flags as they were. -/
theorem C15_constants_fixed (sin cos : K → K) (canvas : Canvas K) (c : Car K) :
    sameConstants (Car.update sin cos canvas c) c ∧
    sameConstants (Car.accelerate c) c ∧
    sameConstants (Car.brake c) c ∧
    (∀ (key : String) (isPressed : Bool), sameConstants (Car.setControl key isPressed c) c) ∧
    ((Car.update sin cos canvas c).controls.up = c.controls.up ∧
      (Car.update sin cos canvas c).controls.down = c.controls.down ∧
      (Car.update sin cos canvas c).controls.left = c.controls.left ∧
      (Car.update sin cos canvas c).controls.right = c.controls.right) := by
  have f := update_frame sin cos canvas c
  refine ⟨⟨f.1, f.2.1, f.2.2.1, f.2.2.2.1, f.2.2.2.2.1, f.2.2.2.2.2.1, f.2.2.2.2.2.2.1⟩,
    ⟨rfl, rfl, rfl, rfl, rfl, rfl, rfl⟩, ⟨rfl, rfl, rfl, rfl, rfl, rfl, rfl⟩,
    fun key isPressed => ?_, ?_⟩
  · simp only [Car.setControl]
    split_ifs <;> exact ⟨rfl, rfl, rfl, rfl, rfl, rfl, rfl⟩
  · rw [f.2.2.2.2.2.2.2]
    exact ⟨rfl, rfl, rfl, rfl⟩

/-- C16. All 16 combinations of the four key flags are reachable: the freshly constructed
car has all four flags false, and for every assignment of booleans to (up, down, left,
right) there is a finite sequence of setControl calls that takes it to a state with exactly
those flags; the same holds from every state, so no combination is barred from following
another. -/
theorem C16_flags_reachable (target : Controls) :
    (∀ (x y width height : K) (color : String),
      (Car.constructor x y width height color).controls = ⟨false, false, false, false⟩ ∧
      ∃ calls : List (String × Bool),
        (setControls calls (Car.constructor x y width height color)).controls = target) ∧
    (∀ c : Car K, ∃ calls : List (String × Bool), (setControls calls c).controls = target) := by
  refine ⟨fun x y width height color => ⟨rfl, _, setControls_four target _⟩,
    fun c => ⟨_, setControls_four target c⟩⟩

/-- C17, at the failing input, in binary64, on a canvas 300 by 150 that fits the car (30 by
50).  A car at y = 100 + 2^-46 is returned by checkBorders with y unchanged, while the clamp
min(max(y, 0), canvas.height - height) is 100: the sum y + height rounds to 150 and the
bottom-edge test does not fire.  The program reaches this input: in the run made of a first
frame, seven ArrowDown key-downs and 70 more frames, the last frame hands checkBorders a
state that it returns with y = 100 + 2^-46. -/
theorem C17_checkBorders_binary64 :
    ((Car.constructorR round64 270 (100 + 1 / 70368744177664) 30 50 "blue").height ≤ 150 ∧
      round64 (100 + 1 / 70368744177664 + 50) = 150 ∧
      (Car.checkBordersR round64 ⟨300, 150⟩
        (Car.constructorR round64 270 (100 + 1 / 70368744177664) 30 50 "blue")).y =
          100 + 1 / 70368744177664 ∧
      min (max (Car.constructorR round64 270 (100 + 1 / 70368744177664) 30 50 "blue").y 0)
        (150 - (Car.constructorR round64 270 (100 + 1 / 70368744177664) 30 50 "blue").height) =
          100) ∧
    ∀ sin cos : ℚ → ℚ, sin 0 = 0 → cos 0 = 1 →
      (Car.moveR round64 sin cos (animateR round64 sin cos ⟨300, 150⟩ 69
        ((Car.setControlR round64 "ArrowDown" true)^[7]
          (Car.updateR round64 sin cos ⟨300, 150⟩ carR)))).height ≤ 150 ∧
      (Car.checkBordersR round64 ⟨300, 150⟩
        (Car.moveR round64 sin cos (animateR round64 sin cos ⟨300, 150⟩ 69
          ((Car.setControlR round64 "ArrowDown" true)^[7]
            (Car.updateR round64 sin cos ⟨300, 150⟩ carR))))).y =
              100 + 1 / 70368744177664 ∧
      min (max (Car.moveR round64 sin cos (animateR round64 sin cos ⟨300, 150⟩ 69
          ((Car.setControlR round64 "ArrowDown" true)^[7]
            (Car.updateR round64 sin cos ⟨300, 150⟩ carR)))).y 0)
        (150 - (Car.moveR round64 sin cos (animateR round64 sin cos ⟨300, 150⟩ 69
          ((Car.setControlR round64 "ArrowDown" true)^[7]
            (Car.updateR round64 sin cos ⟨300, 150⟩ carR)))).height) <
        (Car.checkBordersR round64 ⟨300, 150⟩
          (Car.moveR round64 sin cos (animateR round64 sin cos ⟨300, 150⟩ 69
            ((Car.setControlR round64 "ArrowDown" true)^[7]
              (Car.updateR round64 sin cos ⟨300, 150⟩ carR))))).y := by
  refine ⟨⟨by decide!, by decide!, ?_, by decide!⟩, fun sin cos hs hc => ?_⟩
  · rw [checkBordersR_y]
    decide!
  · have hh : (Car.moveR round64 sin cos (animateR round64 sin cos ⟨300, 150⟩ 69
        ((Car.setControlR round64 "ArrowDown" true)^[7]
          (Car.updateR round64 sin cos ⟨300, 150⟩ carR)))).height = 50 := by
      rw [(moveR_frame round64 sin cos _).2.1, (animateR_frame round64 sin cos _ 69 _).2.1,
        (updateR_trig round64 sin cos (fun _ => 0) (fun _ => 1) ⟨300, 150⟩ carR
          (by rw [(by decide! : turnR round64 carR.controls.left carR.controls.right
            carR.turnSpeed carR.angle = 0)]; exact hs)
          (by rw [(by decide! : turnR round64 carR.controls.left carR.controls.right
            carR.turnSpeed carR.angle = 0)]; exact hc)),
        backing_start.1.2.2.1]
    have hy : (Car.checkBordersR round64 ⟨300, 150⟩
        (Car.moveR round64 sin cos (animateR round64 sin cos ⟨300, 150⟩ 69
          ((Car.setControlR round64 "ArrowDown" true)^[7]
            (Car.updateR round64 sin cos ⟨300, 150⟩ carR))))).y =
              100 + 1 / 70368744177664 := by
      have h := backing_run_y sin cos hs hc
      rw [animateR_succ] at h
      exact h
    refine ⟨by rw [hh]; decide!, hy, ?_⟩
    rw [hy, hh]
    exact lt_of_le_of_lt (min_le_right _ _) (by decide!)

/-- C18. Canvas narrower than the car: with canvas.width below width, checkBorders leaves
x = canvas.width - width, which is negative, whatever x was (the right-edge test runs after
the left-edge test and overrides it); likewise y = canvas.height - height, negative,
whenever canvas.height is below height. -/
theorem C18_checkBorders_narrow (canvas : Canvas K) (c : Car K) :
    (canvas.width < c.width →
      (Car.checkBorders canvas c).x = canvas.width - c.width ∧
      (Car.checkBorders canvas c).x < 0) ∧
    (canvas.height < c.height →
      (Car.checkBorders canvas c).y = canvas.height - c.height ∧
      (Car.checkBorders canvas c).y < 0) := by
  refine ⟨fun h => ?_, fun h => ?_⟩
  · rw [checkBorders_x, bordered_narrow _ _ _ h]
    exact ⟨rfl, by linarith⟩
  · rw [checkBorders_y, bordered_narrow _ _ _ h]
    exact ⟨rfl, by linarith⟩

/-- C18, at a concrete input over the reals: the car of car.js line 114 (30 by 50, at
x = 350, y = 500) on a canvas 20 wide and 40 high is put at x = -10, y = -10. -/
theorem C18_checkBorders_narrow_witness :
    ((20 : ℝ) < 30 ∧ (40 : ℝ) < 50) ∧
    ((Car.checkBorders ⟨20, 40⟩ (car : Car ℝ)).x = 20 - 30 ∧
      (Car.checkBorders ⟨20, 40⟩ (car : Car ℝ)).x < 0) ∧
    ((Car.checkBorders ⟨20, 40⟩ (car : Car ℝ)).y = 40 - 50 ∧
      (Car.checkBorders ⟨20, 40⟩ (car : Car ℝ)).y < 0) :=
  ⟨⟨by norm_num, by norm_num⟩,
    (C18_checkBorders_narrow ⟨20, 40⟩ (car : Car ℝ)).1
      (by
        show (20 : ℝ) < 30
        norm_num),
    (C18_checkBorders_narrow ⟨20, 40⟩ (car : Car ℝ)).2
      (by
        show (40 : ℝ) < 50
        norm_num)⟩

/-- C19. Sub-friction speeds oscillate instead of coming to rest (exact arithmetic, friction
at most maxSpeed, no key event between frames).  With 0 < speed < friction one update gives
speed - friction, which is negative, and a second update gives the original speed back; with
-friction < speed < 0 one update gives speed + friction, which is positive, and a second
update gives the original speed back.  In both cases the speed after an even number of
frames is the original one, after an odd number the other one, and it is never 0. -/
theorem C19_subfriction_oscillation (sin cos : K → K) (canvas : Canvas K) (c : Car K)
    (hf : c.friction ≤ c.maxSpeed) :
    (0 < c.speed → c.speed < c.friction →
      (Car.update sin cos canvas c).speed = c.speed - c.friction ∧
      (Car.update sin cos canvas c).speed < 0 ∧
      (Car.update sin cos canvas (Car.update sin cos canvas c)).speed = c.speed ∧
      (∀ n : Nat, (animate sin cos canvas (2 * n) c).speed = c.speed ∧
        (animate sin cos canvas (2 * n + 1) c).speed = c.speed - c.friction) ∧
      (∀ n : Nat, (animate sin cos canvas n c).speed ≠ 0)) ∧
    (-c.friction < c.speed → c.speed < 0 →
      (Car.update sin cos canvas c).speed = c.speed + c.friction ∧
      0 < (Car.update sin cos canvas c).speed ∧
      (Car.update sin cos canvas (Car.update sin cos canvas c)).speed = c.speed ∧
      (∀ n : Nat, (animate sin cos canvas (2 * n) c).speed = c.speed ∧
        (animate sin cos canvas (2 * n + 1) c).speed = c.speed + c.friction) ∧
      (∀ n : Nat, (animate sin cos canvas n c).speed ≠ 0)) := by
  constructor
  · intro h0 h1
    have alt := animate_alternates sin cos canvas c.friction c.maxSpeed c.speed
      (c.speed - c.friction)
      (fun d hdf hdm hds => by
        rw [update_speed_sub sin cos canvas d (by rw [hdf, hdm]; exact hf)
          (by rw [hds]; exact h0) (by rw [hds, hdf]; exact h1), hds, hdf])
      (fun d hdf hdm hds => by
        rw [update_speed_add sin cos canvas d (by rw [hdf, hdm]; exact hf)
          (by rw [hds]; linarith) (by rw [hds, hdf]; linarith), hds, hdf]
        ring)
    have h1step : (Car.update sin cos canvas c).speed = c.speed - c.friction :=
      (alt 0 c rfl rfl rfl).2
    have h2step : (Car.update sin cos canvas (Car.update sin cos canvas c)).speed = c.speed :=
      (alt 1 c rfl rfl rfl).1
    refine ⟨h1step, by rw [h1step]; linarith, h2step, fun n => alt n c rfl rfl rfl,
      fun n => ?_⟩
    rcases Nat.even_or_odd' n with ⟨k, hk | hk⟩
    · rw [hk, (alt k c rfl rfl rfl).1]
      exact ne_of_gt h0
    · rw [hk, (alt k c rfl rfl rfl).2]
      exact ne_of_lt (by linarith)
  · intro h1 h0
    have alt := animate_alternates sin cos canvas c.friction c.maxSpeed c.speed
      (c.speed + c.friction)
      (fun d hdf hdm hds => by
        rw [update_speed_add sin cos canvas d (by rw [hdf, hdm]; exact hf)
          (by rw [hds]; exact h0) (by rw [hds, hdf]; exact h1), hds, hdf])
      (fun d hdf hdm hds => by
        rw [update_speed_sub sin cos canvas d (by rw [hdf, hdm]; exact hf)
          (by rw [hds]; linarith) (by rw [hds, hdf]; linarith), hds, hdf]
        ring)
    have h1step : (Car.update sin cos canvas c).speed = c.speed + c.friction :=
      (alt 0 c rfl rfl rfl).2
    have h2step : (Car.update sin cos canvas (Car.update sin cos canvas c)).speed = c.speed :=
      (alt 1 c rfl rfl rfl).1
    refine ⟨h1step, by rw [h1step]; linarith, h2step, fun n => alt n c rfl rfl rfl,
      fun n => ?_⟩
    rcases Nat.even_or_odd' n with ⟨k, hk | hk⟩
    · rw [hk, (alt k c rfl rfl rfl).1]
      exact ne_of_lt h0
    · rw [hk, (alt k c rfl rfl rfl).2]
      exact ne_of_gt (by linarith)

/-- C19, at concrete inputs over the reals: the car of car.js line 114 (friction 0.1,
maxSpeed 10) at speed 0.05 and at speed -0.05, on an 800 by 600 canvas. -/
theorem C19_subfriction_oscillation_witness :
    ((withSpeed (1 / 20) car : Car ℝ).friction ≤ (withSpeed (1 / 20) car : Car ℝ).maxSpeed ∧
      0 < (withSpeed (1 / 20) car : Car ℝ).speed ∧
      (withSpeed (1 / 20) car : Car ℝ).speed < (withSpeed (1 / 20) car : Car ℝ).friction) ∧
    ((Car.update Real.sin Real.cos ⟨800, 600⟩ (withSpeed (1 / 20) car : Car ℝ)).speed < 0 ∧
      (Car.update Real.sin Real.cos ⟨800, 600⟩
        (Car.update Real.sin Real.cos ⟨800, 600⟩ (withSpeed (1 / 20) car : Car ℝ))).speed =
          (withSpeed (1 / 20) car : Car ℝ).speed ∧
      ∀ n : Nat,
        (animate Real.sin Real.cos ⟨800, 600⟩ n (withSpeed (1 / 20) car : Car ℝ)).speed ≠ 0) ∧
    ((withSpeed (-(1 / 20)) car : Car ℝ).friction ≤
        (withSpeed (-(1 / 20)) car : Car ℝ).maxSpeed ∧
      -(withSpeed (-(1 / 20)) car : Car ℝ).friction <
        (withSpeed (-(1 / 20)) car : Car ℝ).speed ∧
      (withSpeed (-(1 / 20)) car : Car ℝ).speed < 0) ∧
    (0 < (Car.update Real.sin Real.cos ⟨800, 600⟩
        (withSpeed (-(1 / 20)) car : Car ℝ)).speed ∧
      (Car.update Real.sin Real.cos ⟨800, 600⟩
        (Car.update Real.sin Real.cos ⟨800, 600⟩
          (withSpeed (-(1 / 20)) car : Car ℝ))).speed =
            (withSpeed (-(1 / 20)) car : Car ℝ).speed) := by
  have p1 : (withSpeed (1 / 20) car : Car ℝ).friction ≤
      (withSpeed (1 / 20) car : Car ℝ).maxSpeed := by
    norm_num [withSpeed, car, Car.constructor]
  have p2 : 0 < (withSpeed (1 / 20) car : Car ℝ).speed := by
    norm_num [withSpeed, car, Car.constructor]
  have p3 : (withSpeed (1 / 20) car : Car ℝ).speed <
      (withSpeed (1 / 20) car : Car ℝ).friction := by
    norm_num [withSpeed, car, Car.constructor]
  have q1 : (withSpeed (-(1 / 20)) car : Car ℝ).friction ≤
      (withSpeed (-(1 / 20)) car : Car ℝ).maxSpeed := by
    norm_num [withSpeed, car, Car.constructor]
  have q2 : -(withSpeed (-(1 / 20)) car : Car ℝ).friction <
      (withSpeed (-(1 / 20)) car : Car ℝ).speed := by
    norm_num [withSpeed, car, Car.constructor]
  have q3 : (withSpeed (-(1 / 20)) car : Car ℝ).speed < 0 := by
    norm_num [withSpeed, car, Car.constructor]
  have hp := (C19_subfriction_oscillation Real.sin Real.cos ⟨800, 600⟩
    (withSpeed (1 / 20) car : Car ℝ) p1).1 p2 p3
  have hq := (C19_subfriction_oscillation Real.sin Real.cos ⟨800, 600⟩
    (withSpeed (-(1 / 20)) car : Car ℝ) q1).2 q2 q3
  exact ⟨⟨p1, p2, p3⟩, ⟨hp.2.1, hp.2.2.1, hp.2.2.2.2⟩, ⟨q1, q2, q3⟩, hq.2.1, hq.2.2.1⟩

end CarSim
